import Mathlib

/-!
Verification development for the B2B ordering assistant's
intent-to-product resolution pipeline.

Python strings are modelled as lists of Unicode code points
(`Str := List Nat`); `str` decodes a Lean string literal into this
representation.  Python's `re` substitutions used by the sources are
small fixed patterns, embedded here as direct recursive scanners with
left-to-right, leftmost-match semantics matching `re.sub` / `re.search`.
Character classes are restricted to the alphabets the program actually
processes (ASCII plus the Cyrillic block), as in the repository's data.
-/

set_option maxHeartbeats 1000000
set_option maxRecDepth 4000

namespace Bot

/-- A Python string: the list of its character code points. -/
abbrev Str := List Nat

/-- Decode a Lean string literal into the code-point model. -/
def str (s : String) : Str := s.data.map Char.toNat

/-- Python `\s` restricted to ASCII whitespace: space, tab, LF, VT, FF, CR. -/
def isWs (n : Nat) : Bool := n = 32 || n = 9 || n = 10 || n = 11 || n = 12 || n = 13

/-- Python `\d` (ASCII digits `0`-`9`). -/
def isDig (n : Nat) : Bool := 48 ≤ n && n ≤ 57

/-- ASCII lower-case letter `a`-`z`. -/
def isLatinLower (n : Nat) : Bool := 97 ≤ n && n ≤ 122

/-- ASCII upper-case letter `A`-`Z`. -/
def isLatinUpper (n : Nat) : Bool := 65 ≤ n && n ≤ 90

/-- Cyrillic lower-case letter `а`-`я` (U+0430..U+044F). -/
def isCyrLower (n : Nat) : Bool := 1072 ≤ n && n ≤ 1103

/-- Cyrillic upper-case letter `А`-`Я` (U+0410..U+042F). -/
def isCyrUpper (n : Nat) : Bool := 1040 ≤ n && n ≤ 1071

/-- Code point of `ё` (U+0451). -/
def yoLower : Nat := 1105

/-- Code point of `Ё` (U+0401). -/
def yoUpper : Nat := 1025

/-- Python `\w` for the alphabets in play: ASCII alphanumerics, `_`,
and the Cyrillic letters including `ё`/`Ё`. -/
def isWordChar (n : Nat) : Bool :=
  isDig n || isLatinLower n || isLatinUpper n || n = 95 ||
    isCyrLower n || isCyrUpper n || n = yoLower || n = yoUpper

/-- Python `str.lower` on one code point (ASCII + Cyrillic incl. `Ё`). -/
def lowerChar (n : Nat) : Nat :=
  if isLatinUpper n then n + 32
  else if isCyrUpper n then n + 32
  else if n = yoUpper then yoLower
  else n

/-- Python `str.lower`. -/
def lower (l : Str) : Str := l.map lowerChar

/-- Python `str.lstrip()` over the modelled whitespace. -/
def lstrip (l : Str) : Str := l.dropWhile isWs

/-- Python `str.rstrip()` over the modelled whitespace. -/
def rstrip (l : Str) : Str := (l.reverse.dropWhile isWs).reverse

/-- Python `str.strip()`. -/
def strip (l : Str) : Str := rstrip (lstrip l)

/-- Generic `re.sub` scanner: `m` attempts a match at the current
position and returns the replacement plus the number of consumed
characters (always ≥ 1 for the patterns embedded here); on failure the
scanner emits one character and moves on.  Fuel is the input length,
which bounds the number of steps since every step consumes a
character. -/
def scanSub (m : Str → Option (Str × Nat)) : Nat → Str → Str
  | 0, l => l
  | _ + 1, [] => []
  | fuel + 1, c :: rest =>
    match m (c :: rest) with
    | some (repl, k) => repl ++ scanSub m fuel (rest.drop (k - 1))
    | none => c :: scanSub m fuel rest

/-- Run a substitution scanner over a whole string. -/
def runSub (m : Str → Option (Str × Nat)) (l : Str) : Str :=
  scanSub m l.length l

/-- Case-insensitive literal match (pattern given lower-case); returns
the rest of the input after the literal. -/
def matchLitCI : Str → Str → Option Str
  | [], l => some l
  | _ :: _, [] => none
  | p :: ps, c :: cs => if lowerChar c = p then matchLitCI ps cs else none

/-- Greedy optional single character (`c?` where the following context
cannot also start with `c`). -/
def dropOptChar (c : Nat) : Str → Str
  | [] => []
  | x :: xs => if x = c then xs else x :: xs

/-- `\s+`: at least one whitespace character, greedily. -/
def matchWs1 : Str → Option Str
  | [] => none
  | c :: cs => if isWs c then some (cs.dropWhile isWs) else none

/-! ## app/request_handler/normalize.py -/

/-- `_PREFIX_RE = ^партнер-?м,?\s*\[[^\]]+\]\s*` (IGNORECASE), matched at
the start of the string; returns the rest after the match. -/
def matchPartnerPref (l : Str) : Option Str :=
  match matchLitCI (str "партнер") l with
  | none => none
  | some l₁ =>
    match matchLitCI (str "м") (dropOptChar 45 l₁) with
    | none => none
    | some l₂ =>
      let l₃ := (dropOptChar 44 l₂).dropWhile isWs
      match l₃ with
      | c :: rest =>
        if c = 91 then
          let inside := rest.takeWhile (fun n => n ≠ 93)
          if inside.isEmpty then none
          else
            match rest.drop inside.length with
            | d :: rest' => if d = 93 then some (rest'.dropWhile isWs) else none
            | [] => none
        else none
      | [] => none

/-- Rule 2 of `normalize_text`: strip the addressee prefix if present. -/
def stripPartnerPref (l : Str) : Str :=
  match matchPartnerPref l with
  | some rest => rest
  | none => l

/-- One alternative of `_GREETING_RE`'s group, in the pattern's order:
`здравствуйте | добрый\s+день | добрый\s+вечер | привет`. -/
def matchGreetWord (l : Str) : Option Str :=
  (matchLitCI (str "здравствуйте") l).orElse fun _ =>
    (((matchLitCI (str "добрый") l).bind matchWs1).bind
        (matchLitCI (str "день"))).orElse fun _ =>
      ((((matchLitCI (str "добрый") l).bind matchWs1).bind
          (matchLitCI (str "вечер"))).orElse fun _ =>
        matchLitCI (str "привет") l)

/-- `_GREETING_RE = ^(здравствуйте|добрый\s+день|добрый\s+вечер|привет)\b[,!\s-]*`
(IGNORECASE), matched at the start; returns the rest after the match. -/
def matchGreeting (l : Str) : Option Str :=
  match matchGreetWord l with
  | none => none
  | some rest =>
    match rest with
    | [] => some []
    | c :: _ =>
      if isWordChar c then none
      else some (rest.dropWhile (fun n => n = 44 || n = 33 || isWs n || n = 45))

/-- Rule 3 of `normalize_text`: strip a leading greeting if present. -/
def stripGreeting (l : Str) : Str :=
  match matchGreeting l with
  | some rest => rest
  | none => l

/-- Separator class `[xх*×]` of `_SIZE_X_RE` (IGNORECASE: `X`/`Х` too). -/
def isSizeSep (n : Nat) : Bool :=
  lowerChar n = 120 || lowerChar n = 1093 || n = 42 || n = 215

/-- One match attempt of `_SIZE_X_RE = (\d)\s*[xх*×]\s*(\d)`, replaced
by `\1x\2`. -/
def matchSizeX (l : Str) : Option (Str × Nat) :=
  match l with
  | d1 :: rest =>
    if isDig d1 then
      let sp1 := rest.takeWhile isWs
      match rest.drop sp1.length with
      | sep :: r2 =>
        if isSizeSep sep then
          let sp2 := r2.takeWhile isWs
          match r2.drop sp2.length with
          | d2 :: _ =>
            if isDig d2 then
              some ([d1, 120, d2], sp1.length + sp2.length + 3)
            else none
          | [] => none
        else none
      | [] => none
    else none
  | [] => none

/-- One match attempt of `_SIZE_NA_RE = (\d)\s+на\s+(\d)`, replaced by
`\1x\2`. -/
def matchSizeNa (l : Str) : Option (Str × Nat) :=
  match l with
  | d1 :: rest =>
    if isDig d1 then
      let sp1 := rest.takeWhile isWs
      if sp1.isEmpty then none
      else
        match matchLitCI (str "на") (rest.drop sp1.length) with
        | none => none
        | some r2 =>
          let sp2 := r2.takeWhile isWs
          if sp2.isEmpty then none
          else
            match r2.drop sp2.length with
            | d2 :: _ =>
              if isDig d2 then
                some ([d1, 120, d2], sp1.length + sp2.length + 4)
              else none
            | [] => none
    else none
  | [] => none

/-- Fuelled worker for `collapseWs` (fuel bounds the steps; each step
consumes at least one character, so the input length is enough). -/
def collapseWsAux : Nat → Str → Str
  | 0, l => l
  | _ + 1, [] => []
  | fuel + 1, c :: rest =>
    if isWs c then 32 :: collapseWsAux fuel (rest.dropWhile isWs)
    else c :: collapseWsAux fuel rest

/-- `_SPACE_RE.sub(" ", ·)`: collapse every whitespace run to one space. -/
def collapseWs (l : Str) : Str := collapseWsAux l.length l

/-- `normalize_text` from `app/request_handler/normalize.py`: trim,
strip addressee prefix, strip greeting, lower-case, unify size
separators, collapse whitespace, trim. -/
def normalize_text (t : Str) : Str :=
  let n := strip t
  let n := stripPartnerPref n
  let n := stripGreeting n
  let n := lower n
  let n := runSub matchSizeX n
  let n := runSub matchSizeNa n
  strip (collapseWs n)

/-! ## Generic list/dict helpers mirroring Python semantics -/

/-- `word.startswith(token)`. -/
def listPrefOf : Str → Str → Bool
  | [], _ => true
  | _ :: _, [] => false
  | a :: ra, b :: rb => a = b && listPrefOf ra rb

/-- `needle in haystack` for Python strings (substring test). -/
def infixOf (n : Str) : Str → Bool
  | [] => n.isEmpty
  | c :: t => listPrefOf n (c :: t) || infixOf n t

/-- Fuelled worker for `findRuns`. -/
def findRunsAux (p : Nat → Bool) : Nat → Str → List Str
  | 0, _ => []
  | _ + 1, [] => []
  | fuel + 1, c :: rest =>
    if p c then (c :: rest.takeWhile p) :: findRunsAux p fuel (rest.dropWhile p)
    else findRunsAux p fuel rest

/-- `re.findall` of a one-class `+`-pattern: the maximal runs of
characters satisfying `p`. -/
def findRuns (p : Nat → Bool) (l : Str) : List Str := findRunsAux p l.length l

/-- Python `str.split()` (split on whitespace runs, no empties). -/
def splitWs (l : Str) : List Str := findRuns (fun n => !isWs n) l

/-- Python `token.isdigit()`. -/
def strIsDigit (t : Str) : Bool := !t.isEmpty && t.all isDig

/-- Python `int(token)` on a digit token. -/
def tokenToNat (t : Str) : Nat := t.foldl (fun acc d => acc * 10 + (d - 48)) 0

/-- Python `str(n)` for a natural number. -/
def natToStr (n : Nat) : Str := str (Nat.repr n)

/-- Python dict lookup `m.get(k)` (keys are unique; first match). -/
def dictGet (m : List (Str × Str)) (k : Str) : Option Str :=
  (m.find? (fun p => p.1 == k)).map (·.2)

/-- Python dict lookup `m.get(k, d)`. -/
def dictGetD (m : List (Str × Str)) (k : Str) (d : Str) : Str :=
  (dictGet m k).getD d

/-- Python dict insertion `m[k] = v`: update in place if the key
exists (keeping its position), else append. -/
def dictInsert (m : List (Str × Str)) (k v : Str) : List (Str × Str) :=
  if m.any (fun p => p.1 == k) then
    m.map (fun p => if p.1 == k then (k, v) else p)
  else m ++ [(k, v)]

/-- Python `{**base, **extra}` / `base.update(extra)`. -/
def dictMerge (base extra : List (Str × Str)) : List (Str × Str) :=
  extra.foldl (fun acc p => dictInsert acc p.1 p.2) base

/-- `" ".join(tokens)`. -/
def joinSpace (ts : List Str) : Str := (ts.intersperse [32]).flatten

/-- Stable insertion step of a descending sort: `x` goes before the
first `y` that is not strictly greater (Python `list.sort(key, reverse=True)`
is stable, and a stable descending sort is unique, so insertion sort is
extensionally the same). -/
def insertStable (gt : α → α → Bool) (x : α) : List α → List α
  | [] => [x]
  | y :: ys => if gt y x then y :: insertStable gt x ys else x :: y :: ys

/-- Stable descending sort by the strict comparator `gt`. -/
def stableSort (gt : α → α → Bool) : List α → List α
  | [] => []
  | x :: xs => insertStable gt x (stableSort gt xs)

/-- Replace the first element satisfying `p` (SQLAlchemy
`scalar_one_or_none` row update; rows are unique by constraint). -/
def updateFirst (p : α → Bool) (f : α → α) : List α → List α
  | [] => []
  | x :: xs => if p x then f x :: xs else x :: updateFirst p f xs

/-! ## app/services/search.py -/

/-- The alphanumeric class `[a-zа-я0-9]` of `_TOKEN_RE` /
`_NON_ALNUM_RE` (IGNORECASE; note `ё` is outside `а-я`). -/
def isSearchAlnum (n : Nat) : Bool :=
  isLatinLower n || isLatinUpper n || isCyrLower n || isCyrUpper n || isDig n

/-- Fuelled worker for `subNonAlnum`. -/
def subNonAlnumAux : Nat → Str → Str
  | 0, l => l
  | _ + 1, [] => []
  | fuel + 1, c :: rest =>
    if isSearchAlnum c then c :: subNonAlnumAux fuel rest
    else 32 :: subNonAlnumAux fuel (rest.dropWhile (fun n => !isSearchAlnum n))

/-- `_NON_ALNUM_RE.sub(" ", ·)`: replace every run of non-alphanumeric
characters by a single space. -/
def subNonAlnum (l : Str) : Str := subNonAlnumAux l.length l

/-- `normalize_query_text` from `app/services/search.py`: lower-case,
replace `ё` with `е`, non-alphanumerics to spaces, collapse and trim. -/
def normalize_query_text (t : Str) : Str :=
  let n := (lower t).map (fun c => if c = yoLower then 1077 else c)
  strip (collapseWs (subNonAlnum n))

/-- `_TOKEN_RE.findall`. -/
def findTokens (t : Str) : List Str := findRuns isSearchAlnum t

/-- `_STOP_WORDS` of `app/services/search.py`. -/
def searchStopWords : List Str :=
  [str "шт", str "штук", str "кор", str "короб", str "коробка", str "коробочки",
   str "рул", str "рулон", str "рулонная", str "уп", str "упак", str "упаковка",
   str "мм", str "см", str "м", str "м2", str "кг", str "гр", str "г",
   str "тип", str "номер", str "цвет", str "№"]

/-- `_QTY_UNIT_TOKENS` of `app/services/search.py`. -/
def qtyUnitTokens : List Str :=
  [str "шт", str "штук", str "кор", str "короб", str "коробка", str "коробочки",
   str "рул", str "рулон", str "рулонная", str "уп", str "упак", str "упаковка",
   str "мм", str "см", str "м", str "м2", str "кг", str "гр", str "г"]

/-- `_COLOR_STEM_MAP` of `app/services/search.py`. -/
def colorStemMap : List (Str × Str) :=
  [(str "беж", str "бежев"), (str "сер", str "сер"), (str "бел", str "бел"),
   (str "черн", str "черн"), (str "син", str "син"), (str "зел", str "зел")]

/-- `_extract_numbers`. -/
def extract_numbers (t : Str) : List Nat :=
  (findTokens t).filterMap fun tok =>
    if strIsDigit tok then some (tokenToNat tok) else none

/-- `_extract_tokens`. -/
def extract_tokens (t : Str) : List Str :=
  (findTokens t).filterMap fun tok =>
    if strIsDigit tok || searchStopWords.contains tok then none
    else if tok.length ≤ 2 then none
    else some (dictGetD colorStemMap tok tok)

/-- `_token_matches_title`. -/
def token_matches_title (tok : Str) (title_words : List Str) : Bool :=
  title_words.any (fun w => w == tok || listPrefOf tok w)

/-- `_effective_numbers`. -/
def effective_numbers (query_text : Str) (numbers : List Nat) : List Nat :=
  if numbers.isEmpty then numbers
  else
    let query_tokens := findTokens query_text
    let has_qty_units := query_tokens.any (fun t => qtyUnitTokens.contains t)
    if has_qty_units && numbers.length = 1 then [] else numbers

/-- A catalog `Product` row (attributes used by the core). -/
structure Product where
  id : Nat
  sku : Option Str
  title_ru : Option Str
  price : Option ℚ
  stock_qty : Option Int
  category_id : Option Nat
deriving DecidableEq, Repr

/-- `product.title_ru or ""`. -/
def titleD (p : Product) : Str := p.title_ru.getD []

/-- `product.sku or ""`. -/
def skuD (p : Product) : Str := p.sku.getD []

/-- SQL `col ILIKE '%needle%'` and Python `needle in col.lower()`:
case-insensitive substring containment. -/
def containsCI (hay needle : Str) : Bool := infixOf (lower needle) (lower hay)

/-- A result row dict produced by the retrieval stages.  Rows from
`search_products` carry no `attribute_conflict` key (`none`); history
rows carry `some flag`.  `category_id = some v` models the key being
attached by the pipeline's final lookup. -/
structure Candidate where
  id : Nat
  sku : Option Str
  title_ru : Option Str
  price : ℚ
  stock_qty : Option Int
  score : ℝ
  attribute_conflict : Option Bool
  category_id : Option (Option Nat)

/-- `_score_product`: float arithmetic on exact halves, modelled in `ℝ`. -/
noncomputable def score_product (p : Product) (q : Str) (numbers : List Nat) : ℝ :=
  let title := lower (titleD p)
  let sku := lower (skuD p)
  (if !sku.isEmpty && infixOf q sku then (3 : ℝ) else 0) +
    (if infixOf q title then (3 / 2 : ℝ) else 0) +
    (if !numbers.isEmpty then
      ((numbers.filter (fun n => infixOf (natToStr n) title)).length : ℝ) * (1 / 2)
     else 0)

/-- `_SIZE_RE.search` of `app/services/search.py`:
`(\d+)\s*[xх*]\s*(\d+)`, returning the two captured numbers of the
leftmost match. -/
def searchSizePair : Str → Option (Nat × Nat)
  | [] => none
  | c :: rest =>
    (if isDig c then
      let ds := rest.takeWhile isDig
      let r1 := (rest.drop ds.length).dropWhile isWs
      match r1 with
      | sep :: r2 =>
        if lowerChar sep = 120 || lowerChar sep = 1093 || sep = 42 then
          let r3 := r2.dropWhile isWs
          let ds2 := r3.takeWhile isDig
          if ds2.isEmpty then none
          else some (tokenToNat (c :: ds), tokenToNat ds2)
        else none
      | [] => none
    else none).orElse fun _ => searchSizePair rest

/-- Truthiness of an optional list argument (`if category_ids:`). -/
def optListTruthy (o : Option (List α)) : Bool :=
  match o with
  | some l => !l.isEmpty
  | none => false

/-- `search_products` from `app/services/search.py`, over the catalog
table in row order.  SQL prefetch filters are `ILIKE` conjunctions with
`LIMIT 100`; the strict number/token post-filters and the scored,
stable descending sort follow the source.  The `din 933` boost is kept. -/
noncomputable def search_products (db : List Product) (query : Str) (lim : Nat)
    (category_ids : Option (List Nat)) (product_ids : Option (List Nat)) :
    List Candidate :=
  let original := lower (strip query)
  let q := normalize_query_text query
  let numbers := extract_numbers q
  let tokens := extract_tokens q
  let numbers_for_match := effective_numbers q numbers
  let base := db.filter fun p =>
    (!optListTruthy category_ids ||
      ((category_ids.getD []).any (fun c => p.category_id == some c))) &&
    (!optListTruthy product_ids || ((product_ids.getD []).any (fun i => p.id == i)))
  let prefetch :=
    if !numbers_for_match.isEmpty then
      base.filter fun p => numbers_for_match.all fun num => containsCI (titleD p) (natToStr num)
    else if tokens.length ≥ 2 then
      base.filter fun p => tokens.all fun tok => containsCI (titleD p) tok
    else if tokens.length = 1 then
      base.filter fun p => containsCI (titleD p) (tokens.headD [])
    else
      base.filter fun p => containsCI (titleD p) q
  let products := prefetch.take 100
  let products :=
    if products.isEmpty && numbers_for_match.length ≥ 3 then
      let main_numbers :=
        match searchSizePair original with
        | some (a, b) => [a, b]
        | none => numbers_for_match.take 2
      (db.filter fun p =>
        main_numbers.all fun num => containsCI (titleD p) (natToStr num)).take 100
    else products
  let products :=
    if !numbers_for_match.isEmpty then
      products.filter fun p =>
        numbers_for_match.all fun num => infixOf (natToStr num) (lower (titleD p))
    else products
  let products :=
    if !tokens.isEmpty then
      products.filter fun p =>
        let searchable_words :=
          findTokens (normalize_query_text (titleD p)) ++
            findTokens (normalize_query_text (skuD p))
        tokens.all fun tok => token_matches_title tok searchable_words
    else products
  let scored := products.map fun p =>
    let s := score_product p q numbers
    let s :=
      if infixOf (str "din") original && numbers.contains 933 &&
          infixOf (str "din") (lower (titleD p)) &&
          infixOf (str "933") (lower (titleD p)) then
        s + 5 / 2
      else s
    (p, s)
  let sorted := stableSort (fun a b => decide (b.2 < a.2)) scored
  (sorted.take lim).map fun x =>
    { id := x.1.id, sku := x.1.sku, title_ru := x.1.title_ru,
      price := x.1.price.getD 0, stock_qty := x.1.stock_qty, score := x.2,
      attribute_conflict := none, category_id := none }

/-! ## app/services/org_aliases.py -/

/-- Contextual `re.sub` scanner for patterns that begin with `\b`:
`prev` is the character preceding the scan position in the original
text (`none` at the start). -/
def scanSubCtx (m : Option Nat → Str → Option (Str × Nat)) :
    Nat → Option Nat → Str → Str
  | 0, _, l => l
  | _ + 1, _, [] => []
  | fuel + 1, prev, c :: rest =>
    match m prev (c :: rest) with
    | some (repl, k) =>
      repl ++ scanSubCtx m fuel (some ((c :: rest).getD (k - 1) 0)) (rest.drop (k - 1))
    | none => c :: scanSubCtx m fuel (some c) rest

/-- Run a contextual substitution over a whole string. -/
def runSubCtx (m : Option Nat → Str → Option (Str × Nat)) (l : Str) : Str :=
  scanSubCtx m l.length none l

/-- `\b` at a position whose next character is a word character:
the previous character must be absent or a non-word character. -/
def boundaryBefore (prev : Option Nat) : Bool :=
  match prev with
  | none => true
  | some p => !isWordChar p

/-- `\b` after a word character: the next character must be absent or a
non-word character. -/
def boundaryAfter : Str → Bool
  | [] => true
  | c :: _ => !isWordChar c

/-- Case-insensitive literal followed by a trailing `\b`. -/
def matchLitCIB (lit : Str) (l : Str) : Option Str :=
  match matchLitCI lit l with
  | none => none
  | some rest => if boundaryAfter rest then some rest else none

/-- Literal unit with an optional greedy case-insensitive tail and a
trailing `\b`, with regex backtracking over the optional part
(`кор(?:обка)?\b`, `уп(?:ак)?\b`, `рол(?:ик)?\b`). -/
def matchUnitOpt (core tail : Str) (l : Str) : Option Str :=
  match matchLitCI core l with
  | none => none
  | some rest =>
    match matchLitCIB tail rest with
    | some rest' => some rest'
    | none => if boundaryAfter rest then some rest else none

/-- `т\.?\s*шт`-style unit: literal, optional dot, `\s*`, literal,
trailing `\b`. -/
def matchUnitDotted (first second : Str) (l : Str) : Option Str :=
  match matchLitCI first l with
  | none => none
  | some rest => matchLitCIB second ((dropOptChar 46 rest).dropWhile isWs)

/-- The unit alternation of `_QTY_UNIT_RE` in
`app/services/org_aliases.py`, tried in the pattern's order:
`т\.?\s*шт | т\s*шт | тыс\.?\s*шт | шт | кг | кор(?:обка)? | уп(?:ак)? |
рулон | рол(?:ик)? | пог\.?\s*м | м`, each with the trailing `\b`. -/
def matchAliasUnit (l : Str) : Option Str :=
  (matchUnitDotted (str "т") (str "шт") l).orElse fun _ =>
  (((matchLitCI (str "т") l).map (·.dropWhile isWs)).bind (matchLitCIB (str "шт"))).orElse fun _ =>
  (matchUnitDotted (str "тыс") (str "шт") l).orElse fun _ =>
  (matchLitCIB (str "шт") l).orElse fun _ =>
  (matchLitCIB (str "кг") l).orElse fun _ =>
  (matchUnitOpt (str "кор") (str "обка") l).orElse fun _ =>
  (matchUnitOpt (str "уп") (str "ак") l).orElse fun _ =>
  (matchLitCIB (str "рулон") l).orElse fun _ =>
  (matchUnitOpt (str "рол") (str "ик") l).orElse fun _ =>
  (matchUnitDotted (str "пог") (str "м") l).orElse fun _ =>
  matchLitCIB (str "м") l

/-- One match attempt of `_QTY_UNIT_RE =
`\b\d+(?:[.,]\d+)?\s*(units)\b``, replaced by a single space. -/
def matchQtyUnit (prev : Option Nat) (l : Str) : Option (Str × Nat) :=
  match l with
  | c :: rest =>
    if isDig c && boundaryBefore prev then
      let ds := rest.takeWhile isDig
      let afterInt := rest.drop ds.length
      let afterNum :=
        match afterInt with
        | p :: r =>
          if (p = 46 || p = 44) && !(r.takeWhile isDig).isEmpty then
            r.drop (r.takeWhile isDig).length
          else afterInt
        | [] => afterInt
      let afterWs := afterNum.dropWhile isWs
      match matchAliasUnit afterWs with
      | some rest' => some ([32], l.length - rest'.length)
      | none => none
    else none
  | [] => none

/-- `normalize_alias` from `app/services/org_aliases.py`: lower and
trim, strip quantity-unit phrases, collapse whitespace runs, truncate
to 255 characters.  (No final trim: a stripped phrase can leave a
boundary space.) -/
def normalize_alias (t : Str) : Str :=
  let cleaned := strip (lower t)
  let cleaned := runSubCtx matchQtyUnit cleaned
  (collapseWs cleaned).take 255

/-- An `OrgAlias` row. -/
structure OrgAlias where
  org_id : Nat
  alias_text : Str
  normalized_alias : Str
  product_id : Nat
  weight : Nat
  last_used_at : Int
  created_at : Int
  updated_at : Int
deriving DecidableEq, Repr

/-- `upsert_org_alias` from `app/services/org_aliases.py` as a pure
transformation of the `OrgAlias` table (row order = insertion order;
`now` is the clock reading). -/
def upsert_org_alias (db : List OrgAlias) (org_id : Nat) (alias_text : Str)
    (product_id : Nat) (now : Int) : List OrgAlias :=
  let normalized := normalize_alias alias_text
  if normalized.isEmpty then db
  else
    let pred := fun (r : OrgAlias) =>
      r.org_id == org_id && r.normalized_alias == normalized && r.product_id == product_id
    if db.any pred then
      updateFirst pred
        (fun r => { r with weight := r.weight + 1, last_used_at := now, updated_at := now }) db
    else
      db ++ [{ org_id := org_id, alias_text := alias_text.take 255,
               normalized_alias := normalized, product_id := product_id,
               weight := 1, last_used_at := now, created_at := now,
               updated_at := now }]

/-- `find_org_alias_candidates`: exact normalized match ordered by
weight then recency, falling back to an `ILIKE` substring match. -/
def find_org_alias_candidates (db : List OrgAlias) (org_id : Nat)
    (alias_text : Str) (lim : Nat) : List Nat :=
  let normalized := normalize_alias alias_text
  if normalized.isEmpty then []
  else
    let ordered := fun (rows : List OrgAlias) =>
      (stableSort (fun a b =>
        a.weight > b.weight || (a.weight == b.weight && a.last_used_at > b.last_used_at)) rows
        |>.take lim).map (·.product_id)
    let exact := ordered (db.filter fun r =>
      r.org_id == org_id && r.normalized_alias == normalized)
    if !exact.isEmpty then exact
    else ordered (db.filter fun r =>
      r.org_id == org_id && containsCI r.normalized_alias normalized)

/-! ## app/services/history_candidates.py -/

/-- `_TOKEN_STOP` of `app/services/history_candidates.py`. -/
def histStopTokens : List Str :=
  [str "шт", str "штук", str "кор", str "короб", str "коробка", str "коробочки",
   str "рул", str "рулон", str "рулонная", str "уп", str "упак", str "упаковка",
   str "мм", str "см", str "м", str "м2", str "кг", str "гр", str "г", str "по"]

/-- `_COLOR_TOKENS` of `app/services/history_candidates.py`. -/
def histColorTokens : List Str :=
  [str "сер", str "серая", str "серый", str "беж", str "бежев", str "бел",
   str "белый", str "черн", str "черный", str "син", str "зел"]

/-- `_tokenize_query` of `app/services/history_candidates.py`:
anchors (≤ 2), optional tokens, digit tokens (kept as strings), and the
`with_springs` flag. -/
def history_tokenize_query (query_core : Str) :
    List Str × List Str × List Str × Bool :=
  let normalized := normalize_query_text query_core
  let raw_tokens := splitWs normalized
  let numbers := raw_tokens.filter strIsDigit
  let text_tokens := raw_tokens.filter fun t =>
    !strIsDigit t && !histStopTokens.contains t
  let anchors := text_tokens.filter fun t =>
    !histColorTokens.contains t && t.length ≥ 4
  let anchors :=
    if anchors.isEmpty && !text_tokens.isEmpty then
      (stableSort (fun a b => a.length > b.length) text_tokens).take 1
    else anchors
  let optional := text_tokens.filter fun t => !anchors.contains t
  let with_springs :=
    infixOf (str "пружин") normalized && !infixOf (str "без пружин") normalized
  (anchors.take 2, optional, numbers, with_springs)

/-- `_token_match` of `app/services/history_candidates.py`. -/
def history_token_match (token : Str) (words : List Str) : Bool :=
  words.any fun w => w == token || listPrefOf token w

/-- An `OrgProductStats` row (timestamps as integer day counts). -/
structure OrgStats where
  org_id : Nat
  product_id : Nat
  orders_count : Nat
  qty_sum : ℚ
  last_order_at : Option Int
  last_qty : Option ℚ
  last_unit : Option Str
deriving DecidableEq, Repr

/-- The `ORDER BY orders_count DESC, last_order_at DESC` comparator of
the history retrieval (`NULL`s first under descending order, as in
PostgreSQL). -/
def statGt (a b : OrgStats) : Bool :=
  a.orders_count > b.orders_count ||
    (a.orders_count == b.orders_count &&
      match a.last_order_at, b.last_order_at with
      | none, some _ => true
      | some x, some y => x > y
      | _, _ => false)

/-- `math.log1p` on a natural count, modelled exactly on the reals. -/
noncomputable def log1p (n : Nat) : ℝ := Real.log (1 + n)

/-- `count_org_candidates`. -/
def count_org_candidates (stats : List OrgStats) (org_id : Nat) : Nat :=
  (stats.filter fun s => s.org_id == org_id).length

/-- The filtering and scoring loop of `search_history_products`: join
stats with products, order by count and recency (`NULL`s first), keep
rows whose title contains every digit token and prefix-matches every
anchor, score by `log1p(orders) + recency + 0.35·optional −
0.8·conflict`.  Split from the final sort so concrete runs reduce
without comparing real numbers. -/
noncomputable def history_scored (stats : List OrgStats) (products : List Product)
    (org_id : Nat) (query_core : Str) (now : Int) : List Candidate :=
  match history_tokenize_query query_core with
  | (anchors, optional, numbers, with_springs) =>
    let joined := (stats.filter fun s => s.org_id == org_id).filterMap fun s =>
      (products.find? fun p => p.id == s.product_id).map fun p => (s, p)
    let rows := (stableSort (fun a b => statGt a.1 b.1) joined).take 3000
    rows.filterMap fun sp =>
      let title := normalize_query_text (titleD sp.2 ++ [32] ++ skuD sp.2)
      let words := splitWs title
      if !numbers.isEmpty && !(numbers.all fun num => infixOf num title) then none
      else if !anchors.isEmpty &&
          !(anchors.all fun anchor => history_token_match anchor words) then none
      else
        let attr_conflict := with_springs && infixOf (str "без пружин") title
        let recency : ℝ :=
          match sp.1.last_order_at with
          | some t => 1 / (1 + ((max (now - t) 0 : Int) : ℝ) / 30)
          | none => 0
        let score : ℝ :=
          log1p sp.1.orders_count + recency +
            ((optional.filter fun tok => history_token_match tok words).length : ℝ) *
              (35 / 100) -
            (if attr_conflict then 4 / 5 else 0)
        some ({ id := sp.2.id, sku := sp.2.sku, title_ru := sp.2.title_ru,
                price := sp.2.price.getD 0, stock_qty := sp.2.stock_qty,
                score := score, attribute_conflict := some attr_conflict,
                category_id := none } : Candidate)

/-- `search_history_products` from `app/services/history_candidates.py`:
the scored retrieval above, stably sorted by score descending and
truncated to `limit`.  `now` is the clock reading in days. -/
noncomputable def search_history_products (stats : List OrgStats)
    (products : List Product) (org_id : Nat) (query_core : Str) (lim : Nat)
    (now : Int) : List Candidate :=
  match history_tokenize_query query_core with
  | (anchors, _, numbers, _) =>
    if anchors.isEmpty && numbers.isEmpty then []
    else
      (stableSort (fun a b => decide (b.score < a.score))
        (history_scored stats products org_id query_core now)).take lim

/-! ## app/services/search_aliases.py -/

/-- Alias-map dicts (`{src → dst}` with Python dict insertion order). -/
abbrev AliasMap := List (Str × Str)

/-- The character class `[\w\-]` of `_TOKEN_RE` in
`app/services/search_aliases.py`. -/
def isTokenChar (n : Nat) : Bool := isWordChar n || n = 45

/-- One `\b[\w\-]+\b` token out of a maximal `[\w\-]` run: regex
boundary backtracking trims leading and trailing hyphens, so the match
spans the run's first through last word character. -/
def trimHyphens (run : Str) : Str :=
  ((run.dropWhile fun n => !isWordChar n).reverse.dropWhile fun n =>
    !isWordChar n).reverse

/-- `_TOKEN_RE.findall` of `app/services/search_aliases.py`
(`\b[\w\-]+\b`, IGNORECASE): hyphen-trimmed maximal `[\w\-]` runs with
at least one word character. -/
def aliasTokens (t : Str) : List Str :=
  (findRuns isTokenChar t).filterMap fun run =>
    let tok := trimHyphens run
    if tok.isEmpty then none else some tok

/-- The digit-run alternative `\d{5,}\b` of the article-anchor pattern:
an entire digit run of length ≥ 5 followed by a boundary. -/
def anchorDigitRun (l : Str) : Bool :=
  let ds := l.takeWhile isDig
  ds.length ≥ 5 && boundaryAfter (l.drop ds.length)

/-- `st\d{3,6}\b`: literal `st`, an entire digit run of length 3–6,
then a boundary (greedy `\d{3,6}` with backtracking cannot stop inside
a digit run). -/
def anchorSt (l : Str) : Bool :=
  match matchLitCI (str "st") l with
  | none => false
  | some rest =>
    let ds := rest.takeWhile isDig
    3 ≤ ds.length && ds.length ≤ 6 && boundaryAfter (rest.drop ds.length)

/-- `[a-z]{1,3}\d{2,6}\b`: an entire Latin-letter run of length 1–3,
then an entire digit run of length 2–6, then a boundary. -/
def anchorLetterCode (l : Str) : Bool :=
  let ls := l.takeWhile isLatinLower
  let rest := l.drop ls.length
  let ds := rest.takeWhile isDig
  1 ≤ ls.length && ls.length ≤ 3 && 2 ≤ ds.length && ds.length ≤ 6 &&
    boundaryAfter (rest.drop ds.length)

/-- `_ARTICLE_ANCHOR_RE.search` on an already lower-cased string:
scan every boundary position for one of the three alternatives. -/
def hasArticleAnchor : Option Nat → Str → Bool
  | _, [] => false
  | prev, c :: rest =>
    (boundaryBefore prev &&
      (anchorSt (c :: rest) || anchorLetterCode (c :: rest) ||
        anchorDigitRun (c :: rest))) ||
    hasArticleAnchor (some c) rest

/-- `DEFAULT_ALIASES` of `app/services/search_aliases.py`. -/
def DEFAULT_ALIASES : AliasMap :=
  [(str "спандбонд", str "спанбонд"), (str "спандбон", str "спанбонд"),
   (str "синтепонн", str "синтепон"), (str "ппу", str "поролон")]

/-- The per-token rewrite of `normalize_query_with_aliases`:
`replacement = alias_map.get(token, token)`, except that for `ппу` on a
short anchor-free query the *fallback* default becomes `поролон`. -/
def aliasReplacement (alias_map : AliasMap) (short_query : Bool) (token : Str) : Str :=
  if token = str "ппу" && short_query then dictGetD alias_map token (str "поролон")
  else dictGetD alias_map token token

/-- The token loop of `normalize_query_with_aliases`, with the
short-query flag as a parameter. -/
def normalize_query_with_aliases_core (text : Str) (alias_map : AliasMap)
    (short_query : Bool) : Str × AliasMap :=
  let raw := strip text
  if raw.isEmpty then ([], [])
  else
    let tokens := aliasTokens (lower raw)
    let step := fun (acc : AliasMap × List Str) (token : Str) =>
      let replacement := aliasReplacement alias_map short_query token
      let applied :=
        if replacement ≠ token then dictInsert acc.1 token replacement else acc.1
      (applied, acc.2 ++ [replacement])
    let res := tokens.foldl step ([], [])
    (strip (joinSpace res.2), res.1)

/-- `normalize_query_with_aliases` from `app/services/search_aliases.py`:
token-wise rewrite through the alias map, with the short-query guard
(`≤ 3` tokens and no article anchor) that changes the fallback for
`ппу`. -/
def normalize_query_with_aliases (text : Str) (alias_map : AliasMap) :
    Str × AliasMap :=
  let raw := strip text
  normalize_query_with_aliases_core text alias_map
    ((aliasTokens (lower raw)).length ≤ 3 && !hasArticleAnchor none (lower raw))

/-- A `SearchAlias` row (global synonym table). -/
structure SearchAlias where
  org_id : Option Nat
  src : Str
  dst : Str
  kind : Str
  enabled : Bool
deriving DecidableEq, Repr

/-! ## app/services/order_parser.py -/

/-- Python falsy-`or` on strings (`a or b`). -/
def strOr (a b : Str) : Str := if a.isEmpty then b else a

/-- The class `[a-zа-я0-9x]` of `_to_query_core` (no IGNORECASE; the
input is already lower-cased; `x` is inside `a-z`). -/
def isQcAlnum (n : Nat) : Bool := isLatinLower n || isCyrLower n || isDig n

/-- `_SPLIT_RE = [\n;,]+`: separator characters of `parse_order_text`. -/
def isOpSep (n : Nat) : Bool := n = 10 || n = 59 || n = 44

/-- Generic leftmost `re.search` with boundary context: returns the
match payload, its start index and its length. -/
def searchPat (m : Option Nat → Str → Option (α × Nat)) :
    Option Nat → Nat → Str → Option (α × Nat × Nat)
  | _, _, [] => none
  | prev, i, c :: rest =>
    match m prev (c :: rest) with
    | some (a, k) => some (a, i, k)
    | none => searchPat m (some c) (i + 1) rest

/-- `text[:start] + text[end:]` for a removed match. -/
def cutAt (l : Str) (start len : Nat) : Str := l.take start ++ l.drop (start + len)

/-- `_QTY_THOUSAND_RE = (?P<qty>\d+)\s*т\.?\s*шт\b` (IGNORECASE),
shared by the order parser and the request-handler parser; the payload
is the digit group. -/
def matchThousand (_ : Option Nat) (l : Str) : Option (Str × Nat) :=
  match l with
  | c :: rest =>
    if isDig c then
      let ds := rest.takeWhile isDig
      let afterWs := (rest.drop ds.length).dropWhile isWs
      match matchUnitDotted (str "т") (str "шт") afterWs with
      | some rest' => some (c :: ds, l.length - rest'.length)
      | none => none
    else none
  | [] => none

/-- `_QTY_UNIT_RE = (?P<qty>\d+)\s*(?P<unit>шт|кг|уп|м)\b` of
`app/services/order_parser.py`; payload is (digits, unit). -/
def matchOpQtyUnit (_ : Option Nat) (l : Str) : Option ((Str × Str) × Nat) :=
  match l with
  | c :: rest =>
    if isDig c then
      let ds := rest.takeWhile isDig
      let afterWs := (rest.drop ds.length).dropWhile isWs
      let unit :=
        (matchLitCIB (str "шт") afterWs).map (fun r => (str "шт", r)) |>.orElse fun _ =>
        (matchLitCIB (str "кг") afterWs).map (fun r => (str "кг", r)) |>.orElse fun _ =>
        (matchLitCIB (str "уп") afterWs).map (fun r => (str "уп", r)) |>.orElse fun _ =>
        (matchLitCIB (str "м") afterWs).map (fun r => (str "м", r))
      match unit with
      | some (u, rest') => some ((c :: ds, u), l.length - rest'.length)
      | none => none
    else none
  | [] => none

/-- One match attempt of the order parser's
`_SIZE_X_RE = (\d)\s*[xх*]\s*(\d)` (no `×`), replaced by `\1x\2`. -/
def matchSizeXOp (l : Str) : Option (Str × Nat) :=
  match l with
  | d1 :: rest =>
    if isDig d1 then
      let sp1 := rest.takeWhile isWs
      match rest.drop sp1.length with
      | sep :: r2 =>
        if lowerChar sep = 120 || lowerChar sep = 1093 || sep = 42 then
          let sp2 := r2.takeWhile isWs
          match r2.drop sp2.length with
          | d2 :: _ =>
            if isDig d2 then some ([d1, 120, d2], sp1.length + sp2.length + 3) else none
          | [] => none
        else none
      | [] => none
    else none
  | [] => none

/-- `str.replace(" на ", " x ")` (literal, leftmost, non-overlapping). -/
def matchNaLiteral (l : Str) : Option (Str × Nat) :=
  if listPrefOf (str " на ") l then some (str " x ", 4) else none

/-- `_normalize` of `app/services/order_parser.py`. -/
def op_normalize (t : Str) : Str :=
  let n := lower t
  let n := runSub matchNaLiteral n
  let n := runSub matchSizeXOp n
  strip (collapseWs n)

/-- `_QUERY_SERVICE_TOKENS` of `app/services/order_parser.py`. -/
def queryServiceTokens : List Str :=
  [str "по", str "и", str "для", str "на", str "в", str "с"]

/-- `_to_query_core`. -/
def to_query_core (cleaned : Str) : Str :=
  let tokens := findRuns isQcAlnum cleaned
  let tokens := (tokens.reverse.dropWhile fun t => queryServiceTokens.contains t).reverse
  strip (joinSpace tokens)

/-- `_STOP_HEAD_WORDS` of `app/services/order_parser.py`. -/
def stopHeadWords : List Str :=
  [str "по", str "и", str "для", str "на", str "в", str "с", str "без",
   str "шт", str "уп", str "кг", str "м", str "мм", str "см", str "кор",
   str "короб", str "рул"]

/-- `_COLOR_WORDS` of `app/services/order_parser.py`. -/
def opColorWords : List Str :=
  [str "беж", str "бежев", str "бел", str "белый", str "сер", str "серый",
   str "серая", str "черн", str "черный", str "син", str "зел"]

/-- `_head_token`. -/
def head_token (query : Str) : Option Str :=
  let tokens := findRuns isQcAlnum query
  let candidates := tokens.filter fun t =>
    !strIsDigit t && !stopHeadWords.contains t && !opColorWords.contains t &&
      t.length ≥ 4
  match candidates with
  | [] => none
  | _ => ((stableSort (fun a b => a.length > b.length) candidates).headD []) |> some

/-- A parsed order item (`parse_order_text` dict). -/
structure OrderItem where
  raw : Str
  qty : Nat
  unit : Str
  normalized : Str
  numbers : List Nat
  query : Str
  query_core : Str
deriving DecidableEq, Repr

/-- `_extract_qty_unit` of `app/services/order_parser.py`. -/
def op_extract_qty_unit (t : Str) : Nat × Str × Str :=
  match searchPat matchThousand none 0 t with
  | some (ds, start, len) => (tokenToNat ds * 1000, str "шт", strip (cutAt t start len))
  | none =>
    match searchPat matchOpQtyUnit none 0 t with
    | some ((ds, u), start, len) => (tokenToNat ds, u, strip (cutAt t start len))
    | none => (1, [], t)

/-- `propagate_head` of `app/services/order_parser.py` (head-noun
propagation across elided positions). -/
def propagate_head (items : List OrderItem) : List OrderItem :=
  (items.foldl (fun (acc : List OrderItem × Option Str) item =>
    let query := strip item.query
    match head_token query with
    | some head =>
      (acc.1 ++ [{ item with query_core := strOr (to_query_core query) query }],
        some head)
    | none =>
      match acc.2 with
      | some prev =>
        if !query.isEmpty then
          let newq := strip (prev ++ [32] ++ query)
          (acc.1 ++
            [{ item with
                query := newq
                query_core := strOr (to_query_core newq) newq }], acc.2)
        else
          (acc.1 ++ [{ item with query_core := strOr (to_query_core query) query }],
            acc.2)
      | none =>
        (acc.1 ++ [{ item with query_core := strOr (to_query_core query) query }],
          acc.2)) ([], none)).1

/-- `parse_order_text` from `app/services/order_parser.py`. -/
def parse_order_text (text : Str) : List OrderItem :=
  let pre := (findRuns (fun n => !isOpSep n) text).filterMap fun part =>
    let raw := strip part
    if raw.isEmpty then none
    else
      let normalized := op_normalize raw
      match op_extract_qty_unit normalized with
      | (qty, unit, cleaned) =>
        let numbers := (findRuns isDig cleaned).map tokenToNat
        let numbers := if !unit.isEmpty then numbers.filter (fun n => n ≠ qty) else numbers
        some { raw := raw, qty := qty, unit := unit, normalized := normalized,
               numbers := numbers,
               query := strOr (to_query_core cleaned) (strip cleaned),
               query_core := [] }
  propagate_head pre

/-! ## app/request_handler/parser.py -/

/-- `ItemAttributes` of `app/request_handler/types.py`. -/
structure ItemAttributes where
  size : Option Str
  color : Option Str
  code : Option Str
  din : Option Str
  notes : Option Str
deriving DecidableEq, Repr

/-- An `Item` of `app/request_handler/types.py` (quantities are floats,
modelled as rationals). -/
structure HandlerItem where
  raw : Str
  normalized : Str
  qty : Option ℚ
  unit : Option Str
  attributes : ItemAttributes
  confidence : ℚ
deriving DecidableEq, Repr

/-- A `NeedClarification` of `app/request_handler/types.py`. -/
structure NeedClarification where
  field : Str
  reason : Str
deriving DecidableEq, Repr

/-- Find the first separator of `_SPLIT_RE = [;]+|\s+и\s+`
(IGNORECASE), returning the text before and after it. -/
def findRhSep : Str → Option (Str × Str)
  | [] => none
  | c :: rest =>
    if c = 59 then some ([], rest.dropWhile (fun n => n = 59))
    else
      let fallthru := fun (_ : Unit) =>
        (findRhSep rest).map fun p => (c :: p.1, p.2)
      if isWs c then
        let afterWs := rest.dropWhile isWs
        match matchLitCI (str "и") afterWs with
        | some r2 =>
          match r2 with
          | d :: _ => if isWs d then some ([], r2.dropWhile isWs) else fallthru ()
          | [] => fallthru ()
        | none => fallthru ()
      else fallthru ()

/-- `re.split(_SPLIT_RE, text)` via repeated leftmost separator search. -/
def splitRhParts : Nat → Str → List Str
  | 0, l => [l]
  | fuel + 1, l =>
    match findRhSep l with
    | none => [l]
    | some (before, after) => before :: splitRhParts fuel after

/-- The unit alternation of the request-handler `_QTY_UNIT_RE`, in the
pattern's order, each with the trailing `\b`; payload is the canonical
literal. -/
def matchRhUnit (l : Str) : Option (Str × Str) :=
  let lits :=
    [str "шт", str "штук", str "кг", str "упак", str "уп", str "упаковку",
     str "м", str "пог.м", str "кор", str "коробка", str "коробки",
     str "коробку", str "рул", str "рол", str "рулон", str "комп",
     str "компл", str "комплект"]
  lits.firstM fun lit => (matchLitCIB lit l).map fun r => (lit, r)

/-- `(?P<qty>\d+(?:[\.,]\d+)?)`: an integer with optional decimal part;
payload is the rational value (`float(qty.replace(",", "."))`). -/
def matchDecimal (l : Str) : Option (ℚ × Str) :=
  match l with
  | c :: rest =>
    if isDig c then
      let ds := rest.takeWhile isDig
      let intPart : ℚ := tokenToNat (c :: ds)
      let afterInt := rest.drop ds.length
      match afterInt with
      | p :: r =>
        if (p = 46 || p = 44) && !(r.takeWhile isDig).isEmpty then
          let fs := r.takeWhile isDig
          some (intPart + (tokenToNat fs : ℚ) / ((10 : ℚ) ^ fs.length),
            r.drop fs.length)
        else some (intPart, afterInt)
      | [] => some (intPart, afterInt)
    else none
  | [] => none

/-- The request-handler `_QTY_UNIT_RE` match attempt (decimal quantity,
`\s*`, unit alternation, trailing `\b`); payload is (qty, raw unit). -/
def matchRhQtyUnit (_ : Option Nat) (l : Str) : Option ((ℚ × Str) × Nat) :=
  match matchDecimal l with
  | none => none
  | some (q, afterNum) =>
    match matchRhUnit (afterNum.dropWhile isWs) with
    | some (u, rest') => some ((q, u), l.length - rest'.length)
    | none => none

/-- `_PACK_RE = по\s*(?P<qty>\d+)\s*(?P<unit>шт|штук)\b` (IGNORECASE). -/
def matchPack (_ : Option Nat) (l : Str) : Option ((ℚ × Str) × Nat) :=
  match matchLitCI (str "по") l with
  | none => none
  | some r1 =>
    let r1 := r1.dropWhile isWs
    match r1 with
    | c :: rest =>
      if isDig c then
        let ds := rest.takeWhile isDig
        let afterWs := (rest.drop ds.length).dropWhile isWs
        let unit :=
          (matchLitCIB (str "шт") afterWs).map (fun r => (str "шт", r)) |>.orElse fun _ =>
            (matchLitCIB (str "штук") afterWs).map (fun r => (str "штук", r))
        match unit with
        | some (u, rest') => some (((tokenToNat (c :: ds) : ℚ), u), l.length - rest'.length)
        | none => none
      else none
    | [] => none

/-- `_normalize_unit` of `app/request_handler/parser.py`. -/
def normalize_unit (raw : Str) : Option Str :=
  let unit := strip (lower raw)
  if unit = str "шт" || unit = str "штук" then some (str "шт")
  else if unit = str "упак" || unit = str "уп" || unit = str "упаковку" then some (str "уп")
  else if listPrefOf (str "кор") unit then some (str "кор")
  else if unit = str "рул" || unit = str "рол" || unit = str "рулон" then some (str "рулон")
  else if unit = str "комп" || unit = str "компл" || unit = str "комплект" then some (str "комплект")
  else if unit = str "пог.м" then some (str "пог.м")
  else if unit = str "м" then some (str "м")
  else if unit = str "кг" then some (str "кг")
  else none

/-- `_extract_qty_unit` of `app/request_handler/parser.py`. -/
def rh_extract_qty_unit (t : Str) : Option ℚ × Option Str × Str :=
  match searchPat matchThousand none 0 t with
  | some (ds, start, len) =>
    ((tokenToNat ds : ℚ) * 1000 |> some, some (str "шт"), strip (cutAt t start len))
  | none =>
    match searchPat matchRhQtyUnit none 0 t with
    | some ((q, u), start, len) => (some q, normalize_unit u, strip (cutAt t start len))
    | none => (none, none, t)

/-- `_extract_pack`. -/
def rh_extract_pack (t : Str) : Option ℚ × Option Str × Str :=
  match searchPat matchPack none 0 t with
  | some ((q, u), start, len) => (some q, normalize_unit u, strip (cutAt t start len))
  | none => (none, none, t)

/-- `_SIZE_RE = \b\d+\s*x\s*\d+\b` (IGNORECASE) of the request-handler
parser; payload is the matched text with spaces removed. -/
def matchRhSize (prev : Option Nat) (l : Str) : Option (Str × Nat) :=
  match l with
  | c :: rest =>
    if isDig c && boundaryBefore prev then
      let ds := rest.takeWhile isDig
      let afterWs := (rest.drop ds.length).dropWhile isWs
      match afterWs with
      | sep :: r2 =>
        if lowerChar sep = 120 then
          let r3 := r2.dropWhile isWs
          let ds2 := r3.takeWhile isDig
          if !ds2.isEmpty && boundaryAfter (r3.drop ds2.length) then
            some ((c :: ds) ++ [sep] ++ ds2, l.length - (r3.drop ds2.length).length)
          else none
        else none
      | [] => none
    else none
  | [] => none

/-- `_CODE_RE = (?:#|\()(?P<code>\d{3,5})\)?`; payload is the code
group. -/
def matchRhCode (_ : Option Nat) (l : Str) : Option (Str × Nat) :=
  match l with
  | c :: rest =>
    if c = 35 || c = 40 then
      let ds := rest.takeWhile isDig
      if ds.length ≥ 3 then
        let code := ds.take 5
        let afterCode := rest.drop code.length
        let consumed := 1 + code.length +
          (match afterCode with | d :: _ => if d = 41 then 1 else 0 | [] => 0)
        some (code, consumed)
      else none
    else none
  | [] => none

/-- `_DIN_RE = din\s*(?P<din>\d{3,4})` (IGNORECASE); payload is the
digit group. -/
def matchRhDin (_ : Option Nat) (l : Str) : Option (Str × Nat) :=
  match matchLitCI (str "din") l with
  | none => none
  | some r1 =>
    let r2 := r1.dropWhile isWs
    let ds := r2.takeWhile isDig
    if ds.length ≥ 3 then
      let din := ds.take 4
      some (din, l.length - r2.length + din.length)
    else none

/-- `_COLOR_RE = \b(беж|серый|черный|чёрный|желтый|жёлтый|капучино|грей)\b`
(IGNORECASE); payload is the matched word. -/
def matchRhColor (prev : Option Nat) (l : Str) : Option (Str × Nat) :=
  if boundaryBefore prev then
    let lits :=
      [str "беж", str "серый", str "черный", str "чёрный", str "желтый",
       str "жёлтый", str "капучино", str "грей"]
    (lits.firstM fun lit => (matchLitCIB lit l).map fun r => (lit, r)).map
      fun p => (p.1, l.length - p.2.length)
  else none

/-- `_extract_attributes`. -/
def rh_extract_attributes (t : Str) : ItemAttributes :=
  { size := (searchPat matchRhSize none 0 t).map fun x => x.1.filter (fun n => n ≠ 32)
    color := (searchPat matchRhColor none 0 t).map (·.1)
    code := (searchPat matchRhCode none 0 t).map (·.1)
    din := (searchPat matchRhDin none 0 t).map (·.1)
    notes := none }

/-- Python `x or y` on optional floats (`0.0` is falsy). -/
def pyOrQ (a b : Option ℚ) : Option ℚ :=
  match a with
  | some x => if x = 0 then b else a
  | none => b

/-- Python `x or y` on optional strings (`""` is falsy). -/
def pyOrS (a b : Option Str) : Option Str :=
  match a with
  | some x => if x.isEmpty then b else a
  | none => b

/-- Python `str.strip(" .:-")`. -/
def stripNameChars (l : Str) : Str :=
  let p := fun (n : Nat) => n = 32 || n = 46 || n = 58 || n = 45
  ((l.dropWhile p).reverse.dropWhile p).reverse

/-- `parse_items` from `app/request_handler/parser.py`. -/
def parse_items (text : Str) (has_context : Bool) :
    List HandlerItem × List NeedClarification :=
  let raw_parts := (splitRhParts (text.length + 1) text).filterMap fun p =>
    let s := strip p
    if s.isEmpty then none else some s
  let step := fun (acc : List HandlerItem × List NeedClarification) (part : Str) =>
    match rh_extract_qty_unit part with
    | (qty, unit, cleaned) =>
      match rh_extract_pack cleaned with
      | (pack_qty, pack_unit, cleaned) =>
        let attributes := rh_extract_attributes cleaned
        let name := stripNameChars cleaned
        let attributes :=
          if (pyOrQ pack_qty none).isSome then { attributes with notes := some (str "pack_qty") }
          else attributes
        let name := if name = str "по" then [] else name
        if name.isEmpty && (qty.isSome || pack_qty.isSome) then
          let clar :=
            if !has_context then
              acc.2 ++ [{ field := str "target_item", reason := str "no previous item" }]
            else acc.2
          (acc.1 ++ [{ raw := part, normalized := str "__PATCH__",
                       qty := pyOrQ qty pack_qty, unit := pyOrS unit pack_unit,
                       attributes := { size := none, color := none, code := none,
                                       din := none, notes := some (str "apply_to_last_item") },
                       confidence := 2 / 5 }], clar)
        else if !name.isEmpty then
          (acc.1 ++ [{ raw := part, normalized := name, qty := qty, unit := unit,
                       attributes := attributes, confidence := 3 / 5 }], acc.2)
        else (acc.1, acc.2)
  let res := raw_parts.foldl step ([], [])
  if res.1.isEmpty then
    (res.1, res.2 ++ [{ field := str "item", reason := str "no items" }])
  else res

/-! ## app/config.py and app/services/llm_client.py -/

/-- The configuration fields consulted by the core (`app/config.py`). -/
structure Settings where
  llm_enabled : Bool
  llm_provider : Str
  ollama_base_url : Str
  ollama_model : Str
  gigachat_basic_auth_key : Str
  gigachat_api_base_url : Str
  gigachat_model : Str
  redis_url : Str

/-- `llm_available` from `app/services/llm_client.py`. -/
def llm_available (s : Settings) : Bool :=
  if !s.llm_enabled || s.llm_provider == str "disabled" then false
  else if s.llm_provider == str "ollama" then
    !(strip s.ollama_base_url).isEmpty && !(strip s.ollama_model).isEmpty
  else if s.llm_provider == str "gigachat" then
    !(strip s.gigachat_basic_auth_key).isEmpty &&
      !(strip s.gigachat_api_base_url).isEmpty && !(strip s.gigachat_model).isEmpty
  else false

/-! ## Database session model -/

/-- An `OrgMember` row. -/
structure OrgMember where
  org_id : Nat
  user_id : Nat
  status : Str
deriving DecidableEq, Repr

/-- The relational store plus cache visible to one pipeline run.
`dbError = some e` models a failing database connection: every awaited
query raises; `redisAliasCache` is the decoded alias-map cache entry
per org key (`none` = miss, absent client, or Redis error). -/
structure Session where
  products : List Product
  orgAliases : List OrgAlias
  orgStats : List OrgStats
  searchAliases : List SearchAlias
  orgMembers : List OrgMember
  redisAliasCache : Nat → Option AliasMap
  dbError : Option Str

/-- A pipeline-level failure: a propagated database exception, or
recursion fuel exhaustion (an artifact of the embedding; the source's
multi-item recursion depth is 1 on its own outputs). -/
inductive PipeErr where
  | db (msg : Str)
  | fuel
deriving DecidableEq, Repr

/-- One awaited database query: raises iff the session is failing. -/
def dbCall (sess : Session) (a : α) : Except PipeErr α :=
  match sess.dbError with
  | some e => .error (.db e)
  | none => .ok a

/-- Truthiness of `Optional[int]` (`if org_id:`). -/
def optNatTruthy (o : Option Nat) : Bool :=
  match o with
  | some n => n ≠ 0
  | none => false

/-- `_resolve_org_id` from `app/services/search_pipeline.py`: a truthy
supplied org wins; else the lowest-org active membership of the user. -/
def resolve_org_id (sess : Session) (user_id org_id : Option Nat) :
    Except PipeErr (Option Nat) :=
  if optNatTruthy org_id then .ok org_id
  else if !optNatTruthy user_id then .ok none
  else
    dbCall sess
      ((stableSort (fun (a b : OrgMember) => a.org_id < b.org_id)
        (sess.orgMembers.filter fun m =>
          m.user_id == user_id.getD 0 && m.status == str "active")).head?.map
        (·.org_id))

/-- `get_alias_map` from `app/services/search_aliases.py`: serve the
Redis-cached dict when a client is configured and the key is present;
otherwise read global then org rows (degrading to `{}` on any database
error, as the source's broad `except`), and merge over the defaults.
The source's write-back `SETEX` does not affect the returned value and
is not modelled. -/
def get_alias_map (sess : Session) (settings : Settings) (org_id : Option Nat) :
    AliasMap :=
  let cached :=
    if !settings.redis_url.isEmpty then sess.redisAliasCache (org_id.getD 0)
    else none
  match cached with
  | some m => m
  | none =>
    let result :=
      match sess.dbError with
      | some _ => []
      | none =>
        let toDict := fun (rows : List SearchAlias) (base : AliasMap) =>
          rows.foldl (fun acc r => dictInsert acc r.src r.dst) base
        let globalDict := toDict (sess.searchAliases.filter fun r =>
          r.enabled && r.org_id == none && r.kind == str "token") []
        match org_id with
        | some oid => toDict (sess.searchAliases.filter fun r =>
            r.enabled && r.org_id == some oid && r.kind == str "token") globalDict
        | none => globalDict
    dictMerge DEFAULT_ALIASES result

/-! ## app/services/search_pipeline.py — token helpers -/

/-- `_STOP_WORDS` of `app/services/search_pipeline.py`. -/
def pipeStopWords : List Str :=
  [str "шт", str "штук", str "кор", str "короб", str "коробка", str "коробочки",
   str "рул", str "рулон", str "рулонная", str "уп", str "упак", str "упаковка",
   str "мм", str "см", str "м", str "м2", str "кг", str "гр", str "г",
   str "тип", str "номер", str "цвет", str "no", str "n"]

/-- `_DECORATOR_TOKENS` of `app/services/search_pipeline.py`. -/
def decoratorTokens : List Str :=
  [str "светло", str "темно", str "универсальн", str "по", str "кор",
   str "короб", str "шт", str "уп", str "рул", str "и", str "на", str "для",
   str "нужно", str "нужны", str "дешев", str "дешевая", str "дешевый"]

/-- `_COLOR_STEMS` of `app/services/search_pipeline.py`. -/
def pipeColorStems : List Str :=
  [str "сер", str "беж", str "бел", str "черн", str "син", str "зел", str "красн"]

/-- `_COLOR_TOKEN_MAP` of `app/services/search_pipeline.py`. -/
def pipeColorTokenMap : List (Str × Str) :=
  [(str "серая", str "сер"), (str "серый", str "сер"), (str "серые", str "сер"),
   (str "белый", str "бел"), (str "белая", str "бел"),
   (str "черный", str "черн"), (str "черная", str "черн"),
   (str "бежевый", str "бежев"), (str "бежевая", str "бежев")]

/-- `_ADJ_ENDINGS` of `app/services/search_pipeline.py`, in order. -/
def adjEndings : List Str :=
  [str "ая", str "яя", str "ый", str "ий", str "ое", str "ее", str "ые",
   str "ие", str "ого", str "ему", str "ым", str "ой", str "ую", str "юю"]

/-- `token.endswith(ending)`. -/
def listSuffOf (suf l : Str) : Bool := listPrefOf suf.reverse l.reverse

/-- `_normalize_ru_adj_stem`. -/
def normalize_ru_adj_stem (token : Str) : Str :=
  match dictGet pipeColorTokenMap token with
  | some v => v
  | none =>
    if strIsDigit token || token.length < 5 then token
    else
      match adjEndings.find? (fun e => listSuffOf e token) with
      | some ending =>
        let stem := token.take (token.length - ending.length)
        if stem.length ≥ 3 then stem else token
      | none => token

/-- `_dedupe_keep_order`. -/
def dedupe_keep_order (values : List Str) : List Str :=
  (values.foldl (fun (acc : List Str × List Str) v =>
    let key := strip v
    if key.isEmpty || acc.1.contains key then acc
    else (acc.1 ++ [key], acc.2 ++ [key])) ([], [])).2

/-- `_build_attempt_queries`. -/
def build_attempt_queries (query : Str) : List Str :=
  let normalized := normalize_query_text query
  let base_tokens := (findTokens normalized).map normalize_ru_adj_stem
  if base_tokens.isEmpty then (if normalized.isEmpty then [] else [normalized])
  else
    let full_query := joinSpace base_tokens
    let reduced_tokens := base_tokens.filter fun t =>
      !decoratorTokens.contains t && !pipeStopWords.contains t
    let reduced_query := joinSpace reduced_tokens
    let no_color_tokens := reduced_tokens.filter fun t => !pipeColorStems.contains t
    let no_color_query := joinSpace no_color_tokens
    let core_tokens := no_color_tokens.filter fun t =>
      strIsDigit t || t.any isDig ||
        [str "тип", str "din", str "лл", str "лл70", str "ll", str "ll70"].contains t ||
        t.length ≥ 4
    let core_query := joinSpace (core_tokens.take 6)
    dedupe_keep_order [full_query, reduced_query, no_color_query, core_query]

/-! ## Clarification builder (app/services/clarify.py and spec §4.9)

The pipeline imports `extract_head_token`, `suggestions_to_options`,
`build_facet_options` and a paginating `build_clarification` from
`app.services.clarify`; the module shipped under `src/` predates them
and only contains `history_suggestions`, the tokenizer, the stop list
and `_short_label`.  The missing functions are modelled from the spec
below, reusing the module's own vocabulary where it exists. -/

/-- A suggestion dict `{product_id, title}`. -/
structure Suggestion where
  product_id : Option Nat
  title : Option Str
deriving DecidableEq, Repr

/-- A clarification option; `apply` is `append_tokens` or
`restrict_category_ids` (the unused list is empty). -/
structure ClarifyOption where
  id : Str
  label : Str
  append_tokens : List Str
  restrict_category_ids : List Nat
deriving DecidableEq, Repr

/-- The paginated clarification payload of spec §4.9. -/
structure Clarification where
  question : Str
  reason : Str
  options : List ClarifyOption
  offset : Nat
  next_offset : Option Nat
  prev_offset : Option Nat
  total : Nat
deriving Repr

/-- `_STOP_TOKENS` of `app/services/clarify.py`. -/
def clarifyStopTokens : List Str :=
  [str "по", str "и", str "для", str "на", str "в", str "с", str "без",
   str "шт", str "штук", str "кг", str "мм", str "см", str "тип",
   str "нужно", str "нужны", str "добавь", str "добавить"]

/-- `_short_label` of `app/services/clarify.py`. -/
def shortLabel (title : Str) : Str :=
  let cleaned := joinSpace (splitWs title)
  if cleaned.length ≤ 48 then cleaned
  else rstrip (cleaned.take 47) ++ [8230]

/-- Modelled from the spec: `extract_head_token` is imported by the
pipeline but missing from `src/`; §4.9 says "extract a head token
(first query token that is non-stop, not a digit, length ≥ 4)", which
is `clarify.py`'s own `_key_token` over its `_tokenize`. -/
def extract_head_token (query : Str) : Option Str :=
  ((findRuns isSearchAlnum query).map lower).find? fun t =>
    !clarifyStopTokens.contains t && !strIsDigit t && t.length ≥ 4

/-- `history_suggestions` from `app/services/clarify.py`: products the
org has ordered whose title contains the token, by order count then
recency. -/
def history_suggestions (sess : Session) (org_id : Nat) (token : Str)
    (lim : Nat) : List Suggestion :=
  if token.isEmpty then []
  else
    let joined := (sess.orgStats.filter fun s => s.org_id == org_id).filterMap
      fun s => (sess.products.find? fun p => p.id == s.product_id).map fun p => (s, p)
    let rows := (stableSort (fun a b => statGt a.1 b.1)
      (joined.filter fun sp => containsCI (titleD sp.2) token)).take lim
    rows.map fun sp => { product_id := some sp.2.id, title := sp.2.title_ru }

/-- Modelled from the spec: `suggestions_to_options` is imported by the
pipeline but missing from `src/`; §4.9 says each suggestion becomes
`{id: opt_<n>, label: shortened title, apply: {append_tokens: [<title>]}}`. -/
def suggestions_to_options (suggestions : List Suggestion) : List ClarifyOption :=
  suggestions.enum.map fun si =>
    { id := str "opt_" ++ natToStr (si.1 + 1),
      label := shortLabel (si.2.title.getD []),
      append_tokens := [si.2.title.getD []],
      restrict_category_ids := [] }

/-- First digit run of length 3–5 in a title (the `код` facet). -/
def facetCode (t : Str) : Option Str :=
  (findRuns isDig t).find? fun ds => 3 ≤ ds.length && ds.length ≤ 5

/-- First size pattern `\d+x\d+` in a title (the `размер` facet). -/
def facetSize (t : Str) : Option Str :=
  (searchPat matchRhSize none 0 (lower t)).map fun x => x.1.filter (fun n => n ≠ 32)

/-- First colour token of the clarify module's vocabulary in a title
(the `цвет` facet). -/
def facetColor (t : Str) : Option Str :=
  (splitWs (normalize_query_text t)).find? fun w => histColorTokens.contains w

/-- Token following `тип` in a title (the `тип` facet). -/
def facetKind (t : Str) : Option Str :=
  match (splitWs (normalize_query_text t)).dropWhile (fun w => w ≠ str "тип") with
  | _ :: v :: _ => some v
  | _ => none

/-- Value histogram of a facet over the candidate titles. -/
def facetCounts (f : Str → Option Str) (cands : List Candidate) :
    List (Str × Nat) :=
  (cands.filterMap fun c => f (c.title_ru.getD [])).foldl
    (fun acc v =>
      if acc.any (fun p => p.1 == v) then
        acc.map fun p => if p.1 == v then (p.1, p.2 + 1) else p
      else acc ++ [(v, 1)]) []

/-- Shannon entropy of a histogram. -/
noncomputable def histEntropy (h : List (Str × Nat)) : ℝ :=
  let n : ℝ := ((h.map (·.2)).sum : Nat)
  (h.map fun p => -(((p.2 : ℝ) / n) * Real.log ((p.2 : ℝ) / n))).sum

/-- Modelled from the spec: `build_facet_options` is imported by the
pipeline but missing from `src/`; §4.9 says: bucket candidate titles by
{цвет, размер, код, тип} via regex, compute Shannon entropy per bucket
whose cardinality ≥ 2, choose the max-entropy bucket and emit its
values (up to `max_values`) as append-token options. -/
noncomputable def build_facet_options (cands : List Candidate) (max_values : Nat) :
    Option (Str × List ClarifyOption) :=
  let buckets :=
    [(str "цвет", facetCounts facetColor cands),
     (str "размер", facetCounts facetSize cands),
     (str "код", facetCounts facetCode cands),
     (str "тип", facetCounts facetKind cands)]
  let eligible := buckets.filter fun b => b.2.length ≥ 2
  match stableSort (fun a b => decide (histEntropy b.2 < histEntropy a.2)) eligible with
  | [] => none
  | best :: _ =>
    some (best.1, (best.2.take max_values).map fun v =>
      { id := best.1 ++ [95] ++ v.1, label := v.1,
        append_tokens := [v.1], restrict_category_ids := [] })

/-- Modelled from the spec: the paginating `build_clarification`
(§4.9): given options, a requested offset and `page_size`, return
question, reason, the page slice, the clamped offset, next/prev
offsets and the total. -/
def build_clarification (reason : Str) (options : List ClarifyOption)
    (offset page_size : Nat) (question : Str) : Clarification :=
  let total := options.length
  let lastPage := if total = 0 then 0 else ((total - 1) / page_size) * page_size
  let off := min offset lastPage
  { question := question, reason := reason,
    options := (options.drop off).take page_size, offset := off,
    next_offset := if off + page_size < total then some (off + page_size) else none,
    prev_offset := if off = 0 then none else some (off - min off page_size),
    total := total }

/-! ## LLM boundary

The four LLM-backed service calls (`rewrite_query`, `suggest_queries`,
`narrow_categories`, `rerank_products`) and the router's chat branch
perform HTTP I/O and catch their own transport/parse failures,
degrading to identity/empty.  They are modelled as an oracle whose
fields give the value each call returns; theorems quantify over it. -/

/-- The dict returned by `narrow_categories`. -/
structure NarrowResult where
  category_ids : List Nat
  confidence : Option ℚ
  reason : Option Str

/-- One entry of the reranker's `best` list (arbitrary LLM output:
either field may be missing). -/
structure RerankEntry where
  product_id : Option Int
  score : Option ℚ

/-- One entry of the payload sent to the reranker (the `category` field
is the constant `None` and is not modelled). -/
structure RerankItem where
  product_id : Nat
  title : Option Str
  price : ℚ
  stock : Option Int

/-- An intent-router action dict (`app/services/llm_intent_router.py`). -/
structure RouterAction where
  type : Str
  query_core : Option Str
  subject : Option Str
  qty : Option ℚ
  unit : Option Str
deriving DecidableEq, Repr

/-- The LLM oracle: the value each LLM-backed call would return.
`route` is the entire chat-then-parse-then-sanitize branch of
`route_message` (everything downstream of the first LLM request,
including its exception fallback). -/
structure LLMOracle where
  rewrite_query : Str → Str
  suggest_queries : Str → List Str
  narrow_categories : Str → NarrowResult
  rerank_products : Str → List RerankItem → Option ItemAttributes →
    Option (List RerankEntry)
  route : Str → List RouterAction

/-! ## app/services/llm_intent_router.py — route_message -/

/-- `route_message` from `app/services/llm_intent_router.py`, with the
pure heuristic `parse_actions_from_text` abstracted as a function
parameter (it performs no I/O) and the LLM branch given by the oracle:
if the heuristic yields a meaningful action or the LLM is unavailable,
the heuristic result is returned without any LLM call. -/
def route_message (heuristic : Str → List RouterAction) (oracle : LLMOracle)
    (settings : Settings) (text : Str) : List RouterAction :=
  let heuristic_actions := heuristic text
  let has_meaningful := heuristic_actions.any fun a =>
    a.type == str "ADD_ITEM" || a.type == str "ASK_STOCK_ETA" ||
      a.type == str "MANAGER"
  if has_meaningful || !llm_available settings then heuristic_actions
  else oracle.route text

/-! ## app/services/search_pipeline.py — run_search_pipeline -/

/-- The `decision` dict of the pipeline return value.
`candidates_count_before_llm = none` models the key being absent (the
clarification payload does not carry it); `multi_item` models the key
added by the multi-item branch; `rerank_used = false` likewise models
the key being absent on the clarification path. -/
structure DecisionPayload where
  parsed_items : List OrderItem
  original_query : Str
  alternatives : List Str
  used_alternative : Option Str
  candidates_count_final : Nat
  decision : Str
  history_org_id : Option Nat
  history_candidates_count : Nat
  history_used : Bool
  history_query_used : Option Str
  history_candidates_found : Nat
  alias_candidates_count : Nat
  alias_used : Bool
  alias_query_used : Option Str
  alias_candidates_found : Nat
  category_ids : List Nat
  llm_narrow_confidence : Option ℚ
  llm_narrow_reason : Option Str
  narrowed_query : Option Str
  rerank_best_ids : List Int
  rerank_top_score : Option ℚ
  clarification : Option Clarification
  llm_called : Bool
  llm_stage : Str
  synonym_retry_attempted : Bool
  synonym_map : AliasMap
  query_retry : Str
  retry_results_count : Nat
  candidates_count_before_llm : Option Nat
  rerank_used : Bool
  multi_item : Bool

/-- The empty dict `{}` used as the decision of a multi-item run with
no sub-items. -/
def DecisionPayload.empty : DecisionPayload :=
  { parsed_items := [], original_query := [], alternatives := [],
    used_alternative := none, candidates_count_final := 0, decision := [],
    history_org_id := none, history_candidates_count := 0,
    history_used := false, history_query_used := none,
    history_candidates_found := 0, alias_candidates_count := 0,
    alias_used := false, alias_query_used := none,
    alias_candidates_found := 0, category_ids := [],
    llm_narrow_confidence := none, llm_narrow_reason := none,
    narrowed_query := none, rerank_best_ids := [], rerank_top_score := none,
    clarification := none, llm_called := false, llm_stage := [],
    synonym_retry_attempted := false, synonym_map := [], query_retry := [],
    retry_results_count := 0, candidates_count_before_llm := none,
    rerank_used := false, multi_item := false }

/-- A per-item payload of the multi-item branch (the sub-run's trace is
not modelled). -/
structure ItemPayload where
  item : OrderItem
  query_core : Str
  results : List Candidate
  decision : DecisionPayload

/-- The pipeline return value `{results, decision, items}` (the `trace`
key is not modelled; `items` is empty on single-item runs, where the
key is absent). -/
structure PipelineResult where
  results : List Candidate
  decision : DecisionPayload
  items : List ItemPayload

/-- Alias-stage outcome. -/
structure AliasStage where
  count : Nat
  used : Bool
  query_used : Option Str
  found : Nat
  candidates : List Candidate

/-- History-stage outcome. -/
structure HistStage where
  count : Nat
  used : Bool
  query_used : Option Str
  found : Nat
  candidates : List Candidate

/-- Run `f` on each query in order, stopping at the first non-empty
result (the source's `for … if results: … break` loops). -/
def firstHitM (f : Str → Except PipeErr (List Candidate)) :
    List Str → Except PipeErr (Option (Str × List Candidate))
  | [] => .ok none
  | q :: qs => do
    let r ← f q
    if r.isEmpty then firstHitM f qs else .ok (some (q, r))

/-- LLM normalize/narrow stage outcome. -/
structure NarrowStage where
  llm_called : Bool
  llm_stage : Str
  alternatives : List Str
  used_alternative : Option Str
  category_ids : List Nat
  llm_narrow_confidence : Option ℚ
  llm_narrow_reason : Option Str
  narrowed_query : Option Str
  decision : Str
  candidates : List Candidate

/-- The rerank sort key: `(score_by_id.get(id, -1), item.score)`. -/
def rerankIdScore (m : List (Int × ℚ)) (c : Candidate) : ℚ :=
  (((m.find? fun p => p.1 == (c.id : Int)).map (·.2)).getD (-1))

/-- Strict lexicographic "greater" on the rerank sort key. -/
noncomputable def rerankGt (m : List (Int × ℚ)) (a b : Candidate) : Bool :=
  rerankIdScore m a > rerankIdScore m b ||
    (rerankIdScore m a == rerankIdScore m b && decide (b.score < a.score))

/-- `run_search_pipeline` from `app/services/search_pipeline.py` as a
pure function of the session, configuration, LLM oracle, arguments and
clock, in an error monad mirroring exception propagation (the function
body contains no `try`/`except`; only `get_alias_map` degrades
internally).  Trace construction is not modelled; variables feeding
only the trace are dropped.  `fuel` bounds the multi-item recursion. -/
noncomputable def run_search_pipeline (fuel : Nat) (sess : Session)
    (settings : Settings) (oracle : LLMOracle) (org_id user_id : Option Nat)
    (text : Str) (lim : Nat)
    (enable_llm_narrow enable_llm_rewrite enable_rerank : Bool)
    (clarify_offset : Nat) (now : Int) : Except PipeErr PipelineResult :=
  match fuel with
  | 0 => .error .fuel
  | fuel + 1 =>
    let parsed_items := parse_order_text text
    if parsed_items.length > 1 then do
      let item_payloads ← parsed_items.foldlM (fun (acc : List ItemPayload) item => do
        let item_query := strip (strOr item.query_core (strOr item.query item.raw))
        if item_query.isEmpty then pure acc
        else do
          let sub ← run_search_pipeline fuel sess settings oracle org_id user_id
            item_query lim enable_llm_narrow enable_llm_rewrite enable_rerank
            clarify_offset now
          pure (acc ++ [{ item := item, query_core := item_query,
                          results := sub.results, decision := sub.decision }])) []
      match item_payloads with
      | [] =>
        pure { results := [],
               decision := { DecisionPayload.empty with multi_item := true },
               items := [] }
      | primary :: _ =>
        pure { results := primary.results,
               decision := { primary.decision with multi_item := true },
               items := item_payloads }
    else do
      let handler_items := (parse_items (normalize_text text) false).1
      let fallback_query :=
        match parsed_items with
        | [] => []
        | i :: _ => strOr i.query i.raw
      let hPrimary := match handler_items with | [] => [] | i :: _ => i.normalized
      let clean_query :=
        let parsedQ := match parsed_items with | i :: _ => strip i.query | [] => []
        if !parsedQ.isEmpty then parsedQ
        else if !(strip hPrimary).isEmpty then strip hPrimary
        else strip fallback_query
      let search_query := strOr clean_query fallback_query
      let history_org_id ← resolve_org_id sess user_id org_id
      let alias_map := get_alias_map sess settings history_org_id
      let canon := normalize_query_with_aliases (strOr search_query text) alias_map
      let applied_aliases := canon.2
      let search_query := if !canon.1.isEmpty then canon.1 else search_query
      let attempt_queries := build_attempt_queries (strOr search_query text)

      let aliasSt ←
        if optNatTruthy history_org_id then do
          let ids ← dbCall sess (find_org_alias_candidates sess.orgAliases
            (history_org_id.getD 0) search_query 5)
          if !ids.isEmpty then do
            let cands ← dbCall sess (search_products sess.products search_query
              lim none (some ids))
            if !cands.isEmpty then
              pure { count := ids.length, used := true,
                     query_used := some search_query, found := cands.length,
                     candidates := cands }
            else
              pure { count := ids.length, used := false, query_used := none,
                     found := 0, candidates := cands }
          else
            pure ({ count := 0, used := false, query_used := none, found := 0,
                    candidates := [] } : AliasStage)
        else
          pure ({ count := 0, used := false, query_used := none, found := 0,
                  candidates := [] } : AliasStage)
      let candidates := aliasSt.candidates

      let histSt ←
        if optNatTruthy history_org_id && candidates.isEmpty then do
          let total ← dbCall sess (count_org_candidates sess.orgStats
            (history_org_id.getD 0))
          let hit ← firstHitM (fun q => dbCall sess (search_history_products
            sess.orgStats sess.products (history_org_id.getD 0) q lim now))
            attempt_queries
          match hit with
          | some (q, res) =>
            pure { count := total, used := true, query_used := some q,
                   found := res.length, candidates := res }
          | none =>
            pure { count := total, used := false, query_used := none,
                   found := 0, candidates := [] }
        else
          pure ({ count := 0, used := false, query_used := none, found := 0,
                  candidates := candidates } : HistStage)
      let candidates := histSt.candidates

      let localHit ←
        if !parsed_items.isEmpty && candidates.isEmpty then
          firstHitM (fun q => dbCall sess (search_products sess.products q lim
            none none)) attempt_queries
        else pure none
      let candidates :=
        match localHit with
        | some (_, res) => res
        | none => candidates

      let decision :=
        if aliasSt.used then str "alias_ok"
        else if histSt.used then str "history_ok"
        else if candidates.length > 0 then str "local_ok"
        else str "needs_llm"
      let candidates_count_before_llm := candidates.length

      let rw ←
        if candidates.isEmpty && enable_llm_rewrite && llm_available settings then do
          let rewritten := oracle.rewrite_query (strOr search_query text)
          if !rewritten.isEmpty && rewritten ≠ strOr search_query text then do
            let rr ← dbCall sess (search_products sess.products rewritten lim
              none none)
            pure (true, rr)
          else pure (true, ([] : List Candidate))
        else pure (false, ([] : List Candidate))
      let llm_called := rw.1
      let llm_stage := if rw.1 then str "rewrite" else str "none"
      let decision := if rw.1 && !rw.2.isEmpty then str "llm_rewrite_ok" else decision
      let candidates := if rw.1 && !rw.2.isEmpty then rw.2 else candidates

      let syn ←
        if candidates.isEmpty then do
          let retry := normalize_query_with_aliases (strOr search_query text) alias_map
          let smap := dictMerge applied_aliases retry.2
          if !smap.isEmpty && !retry.1.isEmpty &&
              retry.1 ≠ strOr search_query text then do
            let sr ← dbCall sess (search_products sess.products retry.1 lim
              none none)
            pure (true, some retry.1, smap, sr.length, sr)
          else pure (true, some retry.1, smap, 0, ([] : List Candidate))
        else pure (false, none, applied_aliases, 0, ([] : List Candidate))
      let synonym_retry_attempted := syn.1
      let synonym_retry_query := syn.2.1
      let synonym_map := syn.2.2.1
      let synonym_retry_results_count := syn.2.2.2.1
      let candidates :=
        if !syn.2.2.2.2.isEmpty then syn.2.2.2.2 else candidates

      let clarSt ←
        if candidates.isEmpty then do
          let head_tok := extract_head_token (strOr search_query text)
          let sugg1 ←
            if optNatTruthy history_org_id && head_tok.isSome then
              dbCall sess (history_suggestions sess (history_org_id.getD 0)
                (head_tok.getD []) 60)
            else pure []
          let sugg2 ←
            if sugg1.isEmpty && head_tok.isSome then do
              let gs ← dbCall sess (search_products sess.products
                (head_tok.getD []) 60 none none)
              pure (gs.filterMap fun item =>
                match item.title_ru with
                | some t =>
                  if !t.isEmpty then
                    some ({ product_id := some item.id,
                            title := item.title_ru } : Suggestion)
                  else none
                | none => none)
            else pure sugg1
          let suggestions :=
            if sugg2.isEmpty then
              alias_map.filterMap fun p =>
                if infixOf p.1 (lower (strOr search_query text)) && !p.2.isEmpty then
                  some ({ product_id := none, title := some p.2 } : Suggestion)
                else none
            else sugg2
          pure (some (build_clarification (str "no_candidates")
            (suggestions_to_options suggestions) clarify_offset 10
            (str "Уточни товар:")))
        else if candidates.length > 30 then
          match build_facet_options candidates 30 with
          | some fo =>
            pure (some (build_clarification (str "conflict") fo.2 clarify_offset
              10 (str "Уточни " ++ fo.1 ++ [58])))
          | none => pure none
        else pure none

      match (match clarSt with
             | some c => if c.options.isEmpty then none else some c
             | none => none) with
      | some clar =>
        let llm_reason :=
          if candidates.isEmpty then
            (if !enable_llm_narrow then str "llm_narrow_disabled"
             else if !llm_available settings then str "llm_disabled"
             else clar.reason)
          else clar.reason
        pure { results := candidates.take lim,
               decision :=
                { parsed_items := parsed_items,
                  original_query := strOr search_query text,
                  alternatives := [], used_alternative := none,
                  candidates_count_final := candidates.length,
                  decision := str "needs_clarification",
                  history_org_id := history_org_id,
                  history_candidates_count := histSt.count,
                  history_used := histSt.used,
                  history_query_used := histSt.query_used,
                  history_candidates_found := histSt.found,
                  alias_candidates_count := aliasSt.count,
                  alias_used := aliasSt.used,
                  alias_query_used := aliasSt.query_used,
                  alias_candidates_found := aliasSt.found,
                  category_ids := [], llm_narrow_confidence := none,
                  llm_narrow_reason := some llm_reason,
                  narrowed_query := some search_query,
                  rerank_best_ids := [], rerank_top_score := none,
                  clarification := some clar, llm_called := false,
                  llm_stage := str "none",
                  synonym_retry_attempted := synonym_retry_attempted,
                  synonym_map := synonym_map,
                  query_retry := strOr (synonym_retry_query.getD []) search_query,
                  retry_results_count := synonym_retry_results_count,
                  candidates_count_before_llm := none,
                  rerank_used := false, multi_item := false },
               items := [] }
      | none => do
        let nSt ←
          if candidates.isEmpty && !parsed_items.isEmpty && enable_llm_narrow &&
              llm_available settings then do
            let alternatives := oracle.suggest_queries (strOr search_query text)
            let altHit ← firstHitM (fun q => dbCall sess (search_products
              sess.products q lim none none)) alternatives
            match altHit with
            | some hit =>
              pure { llm_called := true, llm_stage := str "normalize",
                     alternatives := alternatives,
                     used_alternative := some hit.1, category_ids := [],
                     llm_narrow_confidence := none, llm_narrow_reason := none,
                     narrowed_query := none, decision := str "llm_ok",
                     candidates := hit.2 }
            | none => do
              let nq := strOr search_query text
              let nr := oracle.narrow_categories nq
              if !nr.category_ids.isEmpty then do
                let rc ← dbCall sess (search_products sess.products
                  (strOr search_query text) lim (some nr.category_ids) none)
                if !rc.isEmpty then
                  pure { llm_called := true, llm_stage := str "narrow",
                         alternatives := alternatives, used_alternative := none,
                         category_ids := nr.category_ids,
                         llm_narrow_confidence := nr.confidence,
                         llm_narrow_reason := nr.reason,
                         narrowed_query := some nq,
                         decision := str "llm_narrow_ok", candidates := rc }
                else do
                  let altHit2 ← firstHitM (fun q => dbCall sess (search_products
                    sess.products q lim (some nr.category_ids) none)) alternatives
                  match altHit2 with
                  | some hit =>
                    pure { llm_called := true, llm_stage := str "narrow",
                           alternatives := alternatives,
                           used_alternative := some hit.1,
                           category_ids := nr.category_ids,
                           llm_narrow_confidence := nr.confidence,
                           llm_narrow_reason := nr.reason,
                           narrowed_query := some nq,
                           decision := str "llm_narrow_ok",
                           candidates := hit.2 }
                  | none =>
                    pure { llm_called := true, llm_stage := str "narrow",
                           alternatives := alternatives, used_alternative := none,
                           category_ids := nr.category_ids,
                           llm_narrow_confidence := nr.confidence,
                           llm_narrow_reason := nr.reason,
                           narrowed_query := some nq,
                           decision := str "no_match", candidates := [] }
              else
                pure { llm_called := true, llm_stage := str "narrow",
                       alternatives := alternatives, used_alternative := none,
                       category_ids := [],
                       llm_narrow_confidence := nr.confidence,
                       llm_narrow_reason := nr.reason, narrowed_query := some nq,
                       decision := str "no_match", candidates := [] }
          else if candidates.isEmpty then
            pure ({ llm_called := llm_called, llm_stage := llm_stage,
                    alternatives := [], used_alternative := none,
                    category_ids := [], llm_narrow_confidence := none,
                    llm_narrow_reason := some (str "llm_disabled"),
                    narrowed_query := none, decision := str "no_match",
                    candidates := [] } : NarrowStage)
          else
            pure ({ llm_called := llm_called, llm_stage := llm_stage,
                    alternatives := [], used_alternative := none,
                    category_ids := [], llm_narrow_confidence := none,
                    llm_narrow_reason := none, narrowed_query := none,
                    decision := decision, candidates := candidates } : NarrowStage)
        let candidates := nSt.candidates
        let decision := nSt.decision
        let llm_narrow_reason :=
          if candidates.isEmpty then
            (if !enable_llm_narrow then some (str "llm_narrow_disabled")
             else if !llm_available settings then some (str "llm_disabled")
             else nSt.llm_narrow_reason)
          else nSt.llm_narrow_reason
        let decision := if candidates.isEmpty then str "no_match" else decision

        let rr ←
          if enable_rerank && 2 ≤ candidates.length && candidates.length ≤ 30 &&
              llm_available settings then do
            let payload := candidates.map fun c =>
              ({ product_id := c.id, title := c.title_ru, price := c.price,
                 stock := c.stock_qty } : RerankItem)
            let attrs := handler_items.head?.map (·.attributes)
            match oracle.rerank_products (strOr search_query text) payload attrs with
            | some l =>
              if !l.isEmpty then
                let ids := l.filterMap (·.product_id)
                let top := (l.headD ⟨none, none⟩).score
                let scoreById := l.filterMap fun e =>
                  e.product_id.map fun pid => (pid, e.score.getD 0)
                pure (true, str "rerank", true, ids, top,
                  stableSort (rerankGt scoreById) candidates)
              else pure (true, str "rerank", false, ([] : List Int), none, candidates)
            | none => pure (true, str "rerank", false, ([] : List Int), none, candidates)
          else
            pure (nSt.llm_called, nSt.llm_stage, false, ([] : List Int), none,
              candidates)
        let llm_called := rr.1
        let llm_stage := rr.2.1
        let rerank_used := rr.2.2.1
        let rerank_best_ids := rr.2.2.2.1
        let rerank_top_score := rr.2.2.2.2.1
        let candidates := rr.2.2.2.2.2

        let decision :=
          if candidates.isEmpty && decision == str "needs_llm" then str "no_match"
          else decision

        let candidates ←
          if !candidates.isEmpty then do
            let ids := candidates.map (·.id)
            if !ids.isEmpty then do
              let catMap ← dbCall sess (ids.map fun i =>
                (i, (sess.products.find? fun p => p.id == i).bind (·.category_id)))
              pure (candidates.map fun c =>
                let v := ((catMap.find? fun p => p.1 == c.id).map (·.2)).getD none
                { c with category_id := some v })
            else pure candidates
          else pure candidates

        pure { results := candidates,
               decision :=
                { parsed_items := parsed_items,
                  original_query := strOr search_query text,
                  alternatives := nSt.alternatives,
                  used_alternative := nSt.used_alternative,
                  candidates_count_final := candidates.length,
                  decision := decision,
                  history_org_id := history_org_id,
                  history_candidates_count := histSt.count,
                  history_used := histSt.used,
                  history_query_used := histSt.query_used,
                  history_candidates_found := histSt.found,
                  alias_candidates_count := aliasSt.count,
                  alias_used := aliasSt.used,
                  alias_query_used := aliasSt.query_used,
                  alias_candidates_found := aliasSt.found,
                  category_ids := nSt.category_ids,
                  llm_narrow_confidence := nSt.llm_narrow_confidence,
                  llm_narrow_reason := llm_narrow_reason,
                  narrowed_query := nSt.narrowed_query,
                  rerank_best_ids := rerank_best_ids,
                  rerank_top_score := rerank_top_score,
                  clarification := none, llm_called := llm_called,
                  llm_stage := llm_stage,
                  synonym_retry_attempted := synonym_retry_attempted,
                  synonym_map := synonym_map,
                  query_retry := strOr (synonym_retry_query.getD []) search_query,
                  retry_results_count := synonym_retry_results_count,
                  candidates_count_before_llm := some candidates_count_before_llm,
                  rerank_used := rerank_used, multi_item := false },
               items := [] }

/-! ## Verification-support definitions -/

/-- Whitespace discipline of `collapseWs` output: every whitespace
character is a single space not followed by whitespace. -/
def wsOk : Str → Bool
  | [] => true
  | c :: rest =>
    (if isWs c then
      c = 32 && (match rest with | r :: _ => !isWs r | [] => true)
     else true) && wsOk rest

/-- The spec's reading of the synonym rewrite (§4.5): replace each
token by its mapped value if present — with no special case for `ппу`.
Used to compare the guarded source function against the spec's words. -/
def normalize_query_with_aliases_unguarded (text : Str) (alias_map : AliasMap) :
    Str × AliasMap :=
  let raw := strip text
  if raw.isEmpty then ([], [])
  else
    let tokens := aliasTokens (lower raw)
    let step := fun (acc : AliasMap × List Str) (token : Str) =>
      let replacement := dictGetD alias_map token token
      let applied :=
        if replacement ≠ token then dictInsert acc.1 token replacement else acc.1
      (applied, acc.2 ++ [replacement])
    let res := tokens.foldl step ([], [])
    (strip (joinSpace res.2), res.1)

/-- A zero candidate, used as a `headD`/`getD` default. -/
noncomputable def cDefault : Candidate :=
  { id := 0, sku := none, title_ru := none, price := 0, stock_qty := none,
    score := 0, attribute_conflict := none, category_id := none }

/-- A trivial oracle (identity rewrite, empty suggestions); concrete
runs below have the LLM disabled, so its values are never consulted. -/
noncomputable def oracle0 : LLMOracle :=
  { rewrite_query := fun q => q, suggest_queries := fun _ => [],
    narrow_categories := fun _ => ⟨[], none, none⟩,
    rerank_products := fun _ _ _ => none, route := fun _ => [] }

/-- A second, everywhere-different oracle (noninterference witness). -/
noncomputable def oracle1 : LLMOracle :=
  { rewrite_query := fun _ => str "поролон",
    suggest_queries := fun _ => [str "поролон"],
    narrow_categories := fun _ => ⟨[7], some 1, some (str "x")⟩,
    rerank_products := fun _ _ _ => some [],
    route := fun _ => [{ type := str "MANAGER", query_core := none,
                         subject := none, qty := none, unit := none }] }

/-- Configuration with the LLM disabled and no Redis. -/
def settings0 : Settings :=
  { llm_enabled := false, llm_provider := str "disabled", ollama_base_url := [],
    ollama_model := [], gigachat_basic_auth_key := [], gigachat_api_base_url := [],
    gigachat_model := [], redis_url := [] }

/-- A catalog with one product, matched only by the alias-chain rewrite
`труба → шланг → рулон`'s second step. -/
def c1products : List Product :=
  [{ id := 1, sku := none, title_ru := some (str "рукав поливочный"),
     price := none, stock_qty := none, category_id := none }]

/-- A session whose global synonym rows form the chain
`труба → шланг`, `шланг → рукав`: the first application canonicalises
the query to `шланг` (matching nothing), the synonym retry rewrites it
again to `рукав` (matching the catalog). -/
def c1sess : Session :=
  { products := c1products, orgAliases := [], orgStats := [],
    searchAliases :=
      [{ org_id := none, src := str "труба", dst := str "шланг",
         kind := str "token", enabled := true },
       { org_id := none, src := str "шланг", dst := str "рукав",
         kind := str "token", enabled := true }],
    orgMembers := [], redisAliasCache := fun _ => none, dbError := none }

/-- An empty, healthy session (no rows, no Redis cache). -/
def sessEmpty : Session :=
  { products := [], orgAliases := [], orgStats := [], searchAliases := [],
    orgMembers := [], redisAliasCache := fun _ => none, dbError := none }

/-- A session whose database connection fails. -/
def c2sess : Session :=
  { products := [], orgAliases := [], orgStats := [], searchAliases := [],
    orgMembers := [], redisAliasCache := fun _ => none,
    dbError := some (str "connection lost") }

/-- A one-product catalog for the strict-filter witness. -/
def c3db : List Product :=
  [{ id := 1, sku := none, title_ru := some (str "мел белый"),
     price := none, stock_qty := none, category_id := none }]

/-- The single candidate returned by the C3 witness query. -/
noncomputable def c3cand : Candidate :=
  (search_products c3db (str "мел") 5 none none).headD cDefault

/-- History products: a "без пружин" mattress (id 1) and a sprung one
(id 2). -/
def c4products : List Product :=
  [{ id := 1, sku := none, title_ru := some (str "матрас без пружин бонель"),
     price := none, stock_qty := none, category_id := none },
   { id := 2, sku := none, title_ru := some (str "матрас пружинный независимый"),
     price := none, stock_qty := none, category_id := none }]

/-- Order stats: the conflicting product was ordered 7 times, the
non-conflicting one once (no recency data). -/
def c4stats : List OrgStats :=
  [{ org_id := 1, product_id := 1, orders_count := 7, qty_sum := 0,
     last_order_at := none, last_qty := none, last_unit := none },
   { org_id := 1, product_id := 2, orders_count := 1, qty_sum := 0,
     last_order_at := none, last_qty := none, last_unit := none }]

/-- History stats containing only the conflicting product (flag
witness). -/
def c4statsOne : List OrgStats :=
  [{ org_id := 1, product_id := 1, orders_count := 7, qty_sum := 0,
     last_order_at := none, last_qty := none, last_unit := none }]

/-- The spec's eight terminal decision values (the §4.10 state
machine), used to state the divergence of the synonym-retry path. -/
def specTerminalDecisions : List Str :=
  [str "alias_ok", str "history_ok", str "local_ok", str "llm_rewrite_ok",
   str "llm_ok", str "llm_narrow_ok", str "needs_clarification",
   str "no_match"]

/-- The single candidate returned by the C4 flag witness query. -/
noncomputable def c4cand : Candidate :=
  (search_history_products c4statsOne c4products 1 (str "матрас пружин") 5
    0).headD cDefault

/-! # Theorems -/

/-! ## Generic helper lemmas -/

theorem mem_insertStable {gt : α → α → Bool} {x y : α} {l : List α} :
    x ∈ insertStable gt y l ↔ x = y ∨ x ∈ l := by
  induction l with
  | nil => simp [insertStable]
  | cons z zs ih =>
    by_cases h : gt z y = true
    · simp only [insertStable, h, if_pos, List.mem_cons, ih]
      tauto
    · simp only [insertStable, h, if_neg, Bool.false_eq_true, not_false_iff,
        List.mem_cons]
      try tauto

theorem mem_stableSort {gt : α → α → Bool} {x : α} {l : List α} :
    x ∈ stableSort gt l ↔ x ∈ l := by
  induction l with
  | nil => simp [stableSort]
  | cons y ys ih => simp [stableSort, mem_insertStable, ih]

theorem stableSort_pair {gt : α → α → Bool} {a b : α} :
    stableSort gt [a, b] = if gt b a then [b, a] else [a, b] := rfl

theorem list_eq_pair_of_length_eq_two {l : List α} (d : α) (h : l.length = 2) :
    l = [l.getD 0 d, l.getD 1 d] := by
  match l, h with
  | [a, b], _ => rfl

theorem dropWhile_idem (p : α → Bool) (l : List α) :
    (l.dropWhile p).dropWhile p = l.dropWhile p := by
  induction l with
  | nil => rfl
  | cons c rest ih =>
    by_cases h : p c = true
    · simpa [List.dropWhile, h] using ih
    · simp [List.dropWhile, h]

theorem lowerChar_idem (n : Nat) : lowerChar (lowerChar n) = lowerChar n := by
  unfold lowerChar isLatinUpper isCyrUpper yoUpper yoLower
  split_ifs <;> simp_all <;> omega

theorem lower_idem (l : Str) : lower (lower l) = lower l := by
  simp only [lower, List.map_map]
  exact List.map_congr_left fun c _ => lowerChar_idem c

theorem lstrip_idem (l : Str) : lstrip (lstrip l) = lstrip l :=
  dropWhile_idem _ l

theorem rstrip_idem (l : Str) : rstrip (rstrip l) = rstrip l := by
  simp [rstrip, dropWhile_idem]

theorem rstrip_pref (l : Str) : rstrip l <+: l := by
  rw [← List.reverse_suffix, rstrip, List.reverse_reverse]
  exact List.dropWhile_suffix _

theorem lstrip_eq_self_of_head {l : Str}
    (h : ∀ c, l.head? = some c → isWs c = false) : lstrip l = l := by
  cases l with
  | nil => rfl
  | cons c rest => simp [lstrip, List.dropWhile, h c rfl]

theorem head_not_ws_of_lstrip_eq_self {l : Str} (h : lstrip l = l) :
    ∀ c, l.head? = some c → isWs c = false := by
  intro c hc
  cases l with
  | nil => simp at hc
  | cons a rest =>
    simp at hc
    subst hc
    by_contra hws
    simp only [Bool.not_eq_false] at hws
    have := congrArg List.length h
    simp only [lstrip, List.dropWhile, hws] at this
    have hle := (List.dropWhile_sublist (l := rest) isWs).length_le
    simp at this
    omega

theorem strip_idem (l : Str) : strip (strip l) = strip l := by
  unfold strip
  have h1 : lstrip (rstrip (lstrip l)) = rstrip (lstrip l) := by
    apply lstrip_eq_self_of_head
    intro c hc
    have hpre := rstrip_pref (lstrip l)
    obtain ⟨t, ht⟩ := hpre
    have hhead : (lstrip l).head? = some c := by
      rw [← ht]
      cases hr : rstrip (lstrip l) with
      | nil => rw [hr] at hc; simp at hc
      | cons a rest =>
        rw [hr] at hc
        simp only [List.head?] at hc
        simpa using hc
    exact head_not_ws_of_lstrip_eq_self (lstrip_idem l) c hhead
  rw [h1, rstrip_idem]

theorem mem_of_mem_lstrip {c : Nat} {l : Str} (h : c ∈ lstrip l) : c ∈ l :=
  (List.dropWhile_sublist _).mem h

theorem mem_of_mem_rstrip {c : Nat} {l : Str} (h : c ∈ rstrip l) : c ∈ l := by
  unfold rstrip at h
  rw [List.mem_reverse] at h
  have := (List.dropWhile_sublist (l := l.reverse) isWs).mem h
  simpa using this

theorem mem_of_mem_strip {c : Nat} {l : Str} (h : c ∈ strip l) : c ∈ l :=
  mem_of_mem_lstrip (mem_of_mem_rstrip h)

theorem mem_collapseWsAux {c : Nat} :
    ∀ (fuel : Nat) (l : Str), c ∈ collapseWsAux fuel l → c ∈ l ∨ c = 32 := by
  intro fuel
  induction fuel with
  | zero => intro l h; exact Or.inl h
  | succ fuel ih =>
    intro l h
    match l with
    | [] => simp [collapseWsAux] at h
    | a :: rest =>
      by_cases hw : isWs a = true
      · simp only [collapseWsAux, hw, if_pos, List.mem_cons] at h
        rcases h with h | h
        · exact Or.inr h
        · rcases ih _ h with h' | h'
          · exact Or.inl (List.mem_cons_of_mem _ ((List.dropWhile_sublist _).mem h'))
          · exact Or.inr h'
      · simp only [collapseWsAux, hw, if_neg, Bool.false_eq_true, not_false_iff,
          List.mem_cons] at h
        rcases h with h | h
        · exact Or.inl (by simp [h])
        · rcases ih _ h with h' | h'
          · exact Or.inl (List.mem_cons_of_mem _ h')
          · exact Or.inr h'

theorem mem_collapseWs {c : Nat} {l : Str} (h : c ∈ collapseWs l) :
    c ∈ l ∨ c = 32 := mem_collapseWsAux _ _ h

theorem mem_subNonAlnumAux {c : Nat} :
    ∀ (fuel : Nat) (l : Str), c ∈ subNonAlnumAux fuel l → c ∈ l ∨ c = 32 := by
  intro fuel
  induction fuel with
  | zero => intro l h; exact Or.inl h
  | succ fuel ih =>
    intro l h
    match l with
    | [] => simp [subNonAlnumAux] at h
    | a :: rest =>
      by_cases ha : isSearchAlnum a = true
      · simp only [subNonAlnumAux, ha, if_pos, List.mem_cons] at h
        rcases h with h | h
        · exact Or.inl (by simp [h])
        · rcases ih _ h with h' | h'
          · exact Or.inl (List.mem_cons_of_mem _ h')
          · exact Or.inr h'
      · simp only [subNonAlnumAux, ha, if_neg, Bool.false_eq_true, not_false_iff,
          List.mem_cons] at h
        rcases h with h | h
        · exact Or.inr h
        · rcases ih _ h with h' | h'
          · exact Or.inl (List.mem_cons_of_mem _ ((List.dropWhile_sublist _).mem h'))
          · exact Or.inr h'

theorem mem_of_mem_take {c : α} {l : List α} {n : Nat} (h : c ∈ l.take n) :
    c ∈ l := (List.take_sublist _ _).mem h

/-! ## C8 — `normalize_text` and the `ё` rule -/

/-- C8 counterexample: the claim says the string returned by
`normalize_text` never contains `ё`; but `normalize_text` has no such
rule, and `normalize_text "ёж" = "ёж"` keeps the letter. -/
theorem C8_counterexample : yoLower ∈ normalize_text (str "ёж") := by decide

/-- C8 (amended): `normalize_text` does not replace `ё`; the `ё → е`
rule lives in the search-side normalizer `normalize_query_text`, whose
output never contains `ё`. -/
theorem C8_normalize_query_text_no_yo (t : Str) :
    yoLower ∉ normalize_query_text t := by
  intro h
  unfold normalize_query_text at h
  rcases mem_of_mem_strip h |> mem_collapseWs with h' | h'
  · rcases mem_subNonAlnumAux _ _ h' with h'' | h''
    · rcases List.mem_map.1 h'' with ⟨x, _, hx⟩
      by_cases hxy : x = yoLower
      · simp [hxy, yoLower] at hx
      · rw [if_neg hxy] at hx
        exact hxy hx
    · simp [yoLower] at h''
  · simp [yoLower] at h'

/-! ## C10 — `upsert_org_alias` on blank normalizations -/

/-- C10 counterexample: the claim's example is wrong — `"10 шт"` does
not normalize to the empty string but to a single space, which is
truthy, so `upsert_org_alias` does insert a row (with a blank
`normalized_alias`). -/
theorem C10_counterexample :
    normalize_alias (str "10 шт") = [32] ∧
      upsert_org_alias [] 7 (str "10 шт") 3 0 =
        [{ org_id := 7, alias_text := str "10 шт", normalized_alias := [32],
           product_id := 3, weight := 1, last_used_at := 0, created_at := 0,
           updated_at := 0 }] := by
  constructor
  · decide
  · decide

/-- C10 (amended): `upsert_org_alias` is a silent no-op exactly when
`normalize_alias` returns the empty string (for example whitespace-only
input); the table is unchanged. -/
theorem C10_upsert_noop_on_empty (db : List OrgAlias) (org_id : Nat)
    (alias_text : Str) (product_id : Nat) (now : Int)
    (h : normalize_alias alias_text = []) :
    upsert_org_alias db org_id alias_text product_id now = db := by
  simp [upsert_org_alias, h]

/-- C10 witness: a whitespace-only alias normalizes to the empty string
and leaves a concrete table unchanged. -/
theorem C10_upsert_noop_witness :
    normalize_alias (str "   ") = [] ∧
      upsert_org_alias [] 7 (str "   ") 3 0 = [] :=
  ⟨by decide, C10_upsert_noop_on_empty [] 7 (str "   ") 3 0 (by decide)⟩

/-! ## Whitespace discipline of `collapseWs` -/

theorem collapseWsAux_nil (fuel : Nat) : collapseWsAux fuel [] = [] := by
  cases fuel <;> rfl

theorem dropWhile_cons_head {p : α → Bool} {l : List α} {d : α} {ds : List α}
    (h : l.dropWhile p = d :: ds) : p d = false := by
  induction l with
  | nil => simp at h
  | cons a t ih =>
    by_cases ha : p a = true
    · exact ih (by simpa [List.dropWhile, ha] using h)
    · simp only [List.dropWhile, ha, if_neg] at h
      cases h
      simpa using ha

theorem wsOk_tail {c : Nat} {rest : Str} (h : wsOk (c :: rest) = true) :
    wsOk rest = true := by
  simp only [wsOk, Bool.and_eq_true] at h
  exact h.2

theorem wsOk_collapseWsAux :
    ∀ (fuel : Nat) (l : Str), l.length ≤ fuel → wsOk (collapseWsAux fuel l) = true := by
  intro fuel
  induction fuel with
  | zero =>
    intro l hl
    have : l = [] := List.length_eq_zero.1 (Nat.le_zero.1 hl)
    simp [this, collapseWsAux, wsOk]
  | succ fuel ih =>
    intro l hl
    match l with
    | [] => simp [collapseWsAux, wsOk]
    | c :: rest =>
      simp only [List.length_cons, Nat.succ_le_succ_iff] at hl
      by_cases hw : isWs c = true
      · simp only [collapseWsAux, hw, if_pos]
        have hlen : (rest.dropWhile isWs).length ≤ fuel :=
          le_trans (List.dropWhile_sublist _).length_le hl
        have hrec := ih (rest.dropWhile isWs) hlen
        cases hx : rest.dropWhile isWs with
        | nil =>
          rw [collapseWsAux_nil]
          decide
        | cons d ds =>
          have hd : isWs d = false := dropWhile_cons_head hx
          rw [hx] at hrec hlen
          cases fuel with
          | zero => simp at hlen
          | succ fuel' =>
            have hX : collapseWsAux (fuel' + 1) (d :: ds) =
                d :: collapseWsAux fuel' ds := by
              simp [collapseWsAux, hd]
            simp only [wsOk, hw, if_pos, Bool.and_eq_true, decide_eq_true_eq]
            refine ⟨?_, hrec⟩
            rw [hX]
            simp [hd]
      · simp only [collapseWsAux, hw, if_neg, Bool.false_eq_true, not_false_iff]
        have hrec := ih rest hl
        simp [wsOk, hw, hrec]

theorem wsOk_collapseWs (l : Str) : wsOk (collapseWs l) = true :=
  wsOk_collapseWsAux _ _ le_rfl

theorem collapseWsAux_fix :
    ∀ (fuel : Nat) (l : Str), l.length ≤ fuel → wsOk l = true →
      collapseWsAux fuel l = l := by
  intro fuel
  induction fuel with
  | zero => intro l _ _; rfl
  | succ fuel ih =>
    intro l hl hok
    match l with
    | [] => rfl
    | c :: rest =>
      simp only [List.length_cons, Nat.succ_le_succ_iff] at hl
      by_cases hw : isWs c = true
      · simp only [wsOk, hw, if_pos, Bool.and_eq_true, decide_eq_true_eq] at hok
        obtain ⟨⟨hc32, hnext⟩, htl⟩ := hok
        simp only [collapseWsAux, hw, if_pos]
        have hdr : rest.dropWhile isWs = rest := by
          cases rest with
          | nil => rfl
          | cons r rs =>
            simp only at hnext
            have : isWs r = false := by simpa using hnext
            simp [List.dropWhile, this]
        rw [hdr, ih rest hl (by
          simpa using htl), hc32]
      · simp only [collapseWsAux, hw, if_neg, Bool.false_eq_true, not_false_iff]
        simp only [wsOk, hw, if_neg, Bool.false_eq_true, not_false_iff,
          Bool.true_and] at hok
        rw [ih rest hl hok]

theorem wsOk_suffix {l₂ l₁ : Str} (h : l₂ <:+ l₁) (hok : wsOk l₁ = true) :
    wsOk l₂ = true := by
  induction l₁ with
  | nil =>
    rw [List.suffix_nil.1 h]
    decide
  | cons y ys ih =>
    rcases List.suffix_cons_iff.1 h with h' | h'
    · rw [h']; exact hok
    · exact ih h' (wsOk_tail hok)

theorem wsOk_prefix {l₂ l₁ : Str} (h : l₂ <+: l₁) (hok : wsOk l₁ = true) :
    wsOk l₂ = true := by
  induction l₂ generalizing l₁ with
  | nil => simp [wsOk]
  | cons c cs ih =>
    obtain ⟨t, ht⟩ := h
    cases l₁ with
    | nil => simp at ht
    | cons y ys =>
      simp only [List.cons_append, List.cons.injEq] at ht
      obtain ⟨rfl, hys⟩ := ht
      have hcs : cs <+: ys := ⟨t, hys⟩
      simp only [wsOk, Bool.and_eq_true] at hok ⊢
      refine ⟨?_, ih hcs hok.2⟩
      by_cases hw : isWs c = true
      · simp only [hw, if_pos] at hok ⊢
        simp only [Bool.and_eq_true] at hok ⊢
        refine ⟨hok.1.1, ?_⟩
        cases cs with
        | nil => rfl
        | cons r rs =>
          cases ys with
          | nil => simp at hys
          | cons r' rs' =>
            have : r = r' := by
              simp only [List.cons_append, List.cons.injEq] at hys
              exact hys.1
            rw [this]
            exact hok.1.2
      · simp [hw]

theorem wsOk_strip {l : Str} (hok : wsOk l = true) : wsOk (strip l) = true :=
  wsOk_prefix (rstrip_pref _) (wsOk_suffix (List.dropWhile_suffix _) hok)

/-! ## C7 — idempotence of `normalize_text` -/

/-- C7 counterexample: `normalize_text` is not idempotent — a repeated
greeting survives one pass and is stripped by the next
(`"привет привет 5"` normalizes to `"привет 5"`, which normalizes to
`"5"`). -/
theorem C7_counterexample :
    normalize_text (normalize_text (str "привет привет 5")) ≠
      normalize_text (str "привет привет 5") := by decide

/-- C7 (amended): `normalize_text` is not idempotent in general — the
greeting (and prefix) strip can apply again to its own output — but the
lower-casing, trim, and whitespace-collapse rules are individually
idempotent. -/
theorem C7_rules_idempotent :
    (∀ l : Str, lower (lower l) = lower l) ∧
      (∀ l : Str, strip (strip l) = strip l) ∧
      (∀ l : Str, strip (collapseWs (strip (collapseWs l))) = strip (collapseWs l)) := by
  refine ⟨lower_idem, strip_idem, fun l => ?_⟩
  have h3 : collapseWs (strip (collapseWs l)) = strip (collapseWs l) :=
    collapseWsAux_fix _ _ le_rfl (wsOk_strip (wsOk_collapseWs l))
  rw [h3, strip_idem]

/-! ## Boundary-whitespace preservation (for C9) -/

theorem lstrip_strip (l : Str) : lstrip (strip l) = strip l := by
  apply lstrip_eq_self_of_head
  intro c hc
  unfold strip at hc
  have hpre := rstrip_pref (lstrip l)
  obtain ⟨t, ht⟩ := hpre
  have hhead : (lstrip l).head? = some c := by
    rw [← ht]
    cases hr : rstrip (lstrip l) with
    | nil => rw [hr] at hc; simp at hc
    | cons a rest =>
      rw [hr] at hc
      simp only [List.head?] at hc
      simpa using hc
  exact head_not_ws_of_lstrip_eq_self (lstrip_idem l) c hhead

theorem rstrip_strip (l : Str) : rstrip (strip l) = strip l := by
  unfold strip
  exact rstrip_idem _

theorem rstrip_eq_self_of_last {l : Str}
    (h : ∀ c, l.getLast? = some c → isWs c = false) : rstrip l = l := by
  have hrev : lstrip l.reverse = l.reverse := by
    apply lstrip_eq_self_of_head
    intro c hc
    exact h c (by rwa [List.head?_reverse] at hc)
  unfold lstrip at hrev
  unfold rstrip
  rw [hrev, List.reverse_reverse]

theorem last_not_ws_of_rstrip_eq_self {l : Str} (h : rstrip l = l) :
    ∀ c, l.getLast? = some c → isWs c = false := by
  intro c hc
  have hhead : l.reverse.head? = some c := by rwa [List.head?_reverse]
  have hfix : lstrip l.reverse = l.reverse := by
    have := congrArg List.reverse h
    unfold rstrip at this
    rw [List.reverse_reverse] at this
    unfold lstrip
    exact this
  exact head_not_ws_of_lstrip_eq_self hfix c hhead

theorem getLast?_cons_of_ne_nil {a : α} {l : List α} (h : l ≠ []) :
    (a :: l).getLast? = l.getLast? := by
  cases l with
  | nil => exact absurd rfl h
  | cons b t => exact List.getLast?_cons_cons

theorem getLast?_of_suffix {l₂ l₁ : Str} (h : l₂ <:+ l₁) (hne : l₂ ≠ []) :
    l₁.getLast? = l₂.getLast? := by
  obtain ⟨a, rfl⟩ := h
  exact List.getLast?_append_of_ne_nil a hne

theorem collapseWsAux_ne_nil {fuel : Nat} {c : Nat} {rest : Str} :
    collapseWsAux (fuel + 1) (c :: rest) ≠ [] := by
  by_cases h : isWs c = true <;> simp [collapseWsAux, h]

theorem collapseWsAux_last :
    ∀ (fuel : Nat) (l : Str), l.length ≤ fuel →
      (∀ c, l.getLast? = some c → isWs c = false) →
      ∀ c, (collapseWsAux fuel l).getLast? = some c → isWs c = false := by
  intro fuel
  induction fuel with
  | zero =>
    intro l hl h c hc
    have : l = [] := List.length_eq_zero.1 (Nat.le_zero.1 hl)
    subst this
    simp [collapseWsAux] at hc
  | succ fuel ih =>
    intro l hl h c hc
    match l with
    | [] => simp [collapseWsAux] at hc
    | a :: rest =>
      simp only [List.length_cons, Nat.succ_le_succ_iff] at hl
      by_cases hw : isWs a = true
      · simp only [collapseWsAux, hw, if_pos] at hc
        cases rest with
        | nil =>
          have := h a (by simp)
          rw [hw] at this
          simp at this
        | cons r rs =>
          cases hx : (r :: rs).dropWhile isWs with
          | nil =>
            have hall := List.dropWhile_eq_nil_iff.1 hx
            have hlast : ∃ d, (r :: rs).getLast? = some d := by
              cases hgl : (r :: rs).getLast? with
              | none => simp [List.getLast?_eq_none_iff] at hgl
              | some d => exact ⟨d, rfl⟩
            obtain ⟨d, hd⟩ := hlast
            have hdm : d ∈ r :: rs := List.mem_of_mem_getLast? (by simp [hd])
            have hdw : isWs d = true := hall d hdm
            have := h d (by rw [getLast?_cons_of_ne_nil (by simp), hd])
            rw [hdw] at this
            simp at this
          | cons d ds =>
            rw [hx] at hc
            have hlen2 : (d :: ds).length ≤ fuel :=
              le_trans (le_of_eq (congrArg List.length hx).symm)
                (le_trans (List.dropWhile_sublist _).length_le hl)
            cases fuel with
            | zero => simp at hlen2
            | succ fuel' =>
              have hX := @collapseWsAux_ne_nil fuel' d ds
              rw [getLast?_cons_of_ne_nil hX] at hc
              refine ih (d :: ds) hlen2 ?_ c hc
              intro e he
              have hsuf : (d :: ds) <:+ (r :: rs) := hx ▸ List.dropWhile_suffix _
              have h1 : (r :: rs).getLast? = (d :: ds).getLast? :=
                getLast?_of_suffix hsuf (by simp)
              have h2 : (a :: r :: rs).getLast? = (r :: rs).getLast? :=
                getLast?_cons_of_ne_nil (by simp)
              exact h e (by rw [h2, h1, he])
      · simp only [collapseWsAux, hw, if_neg, Bool.false_eq_true,
          not_false_iff] at hc
        cases rest with
        | nil =>
          rw [collapseWsAux_nil] at hc
          simp at hc
          exact hc ▸ (by simpa using hw)
        | cons r rs =>
          cases fuel with
          | zero => simp at hl
          | succ fuel' =>
            have hY := @collapseWsAux_ne_nil fuel' r rs
            rw [getLast?_cons_of_ne_nil hY] at hc
            refine ih (r :: rs) hl ?_ c hc
            intro e he
            exact h e (by rw [getLast?_cons_of_ne_nil (by simp), he])

theorem strip_collapseWs_strip (y : Str) :
    strip (collapseWs (strip y)) = collapseWs (strip y) := by
  have hhead : lstrip (collapseWs (strip y)) = collapseWs (strip y) := by
    apply lstrip_eq_self_of_head
    intro c hc
    cases hs : strip y with
    | nil => rw [hs] at hc; simp [collapseWs, collapseWsAux] at hc
    | cons a rest =>
      have ha : isWs a = false :=
        head_not_ws_of_lstrip_eq_self (hs ▸ lstrip_strip y) a (by simp)
      rw [hs] at hc
      simp only [collapseWs, List.length_cons, collapseWsAux, ha,
        Bool.false_eq_true, if_neg, not_false_iff, List.head?] at hc
      cases hc
      exact ha
  have hlast : rstrip (collapseWs (strip y)) = collapseWs (strip y) := by
    apply rstrip_eq_self_of_last
    exact collapseWsAux_last _ _ le_rfl
      (last_not_ws_of_rstrip_eq_self (rstrip_strip y))
  show rstrip (lstrip (collapseWs (strip y))) = collapseWs (strip y)
  rw [hhead, hlast]

/-! ## C9 — idempotence of `normalize_alias` -/

theorem isDig_lowerChar (n : Nat) : isDig (lowerChar n) = isDig n := by
  unfold lowerChar isDig isLatinUpper isCyrUpper yoUpper yoLower
  split_ifs with h1 h2 h3 <;>
    · rw [Bool.eq_iff_iff]
      try simp only [Bool.and_eq_true, decide_eq_true_eq] at *
      try omega

theorem matchQtyUnit_none {prev : Option Nat} {c : Nat} {rest : Str}
    (h : isDig c = false) : matchQtyUnit prev (c :: rest) = none := by
  simp [matchQtyUnit, h]

theorem scanSubCtx_qty_id :
    ∀ (fuel : Nat) (prev : Option Nat) (l : Str),
      (∀ c ∈ l, isDig c = false) →
      scanSubCtx matchQtyUnit fuel prev l = l := by
  intro fuel
  induction fuel with
  | zero => intro prev l _; rfl
  | succ fuel ih =>
    intro prev l h
    match l with
    | [] => rfl
    | c :: rest =>
      have hc : isDig c = false := h c (by simp)
      simp only [scanSubCtx, matchQtyUnit_none hc]
      rw [ih (some c) rest fun d hd => h d (by simp [hd])]

theorem runSubCtx_qty_id {l : Str} (h : ∀ c ∈ l, isDig c = false) :
    runSubCtx matchQtyUnit l = l := scanSubCtx_qty_id _ _ _ h

theorem nodig_lower {t : Str} (h : ∀ c ∈ t, isDig c = false) :
    ∀ c ∈ lower t, isDig c = false := by
  intro c hc
  obtain ⟨x, hx, rfl⟩ := List.mem_map.1 hc
  rw [isDig_lowerChar]
  exact h x hx

theorem nodig_strip {t : Str} (h : ∀ c ∈ t, isDig c = false) :
    ∀ c ∈ strip t, isDig c = false :=
  fun c hc => h c (mem_of_mem_strip hc)

theorem nodig_collapseWs {t : Str} (h : ∀ c ∈ t, isDig c = false) :
    ∀ c ∈ collapseWs t, isDig c = false := by
  intro c hc
  rcases mem_collapseWs hc with h' | h'
  · exact h c h'
  · subst h'; decide

theorem length_collapseWsAux_le :
    ∀ (fuel : Nat) (l : Str), (collapseWsAux fuel l).length ≤ l.length := by
  intro fuel
  induction fuel with
  | zero => intro l; exact le_rfl
  | succ fuel ih =>
    intro l
    match l with
    | [] => simp [collapseWsAux]
    | c :: rest =>
      by_cases hw : isWs c = true
      · simp only [collapseWsAux, hw, if_pos, List.length_cons]
        have h1 := ih (rest.dropWhile isWs)
        have h2 := (List.dropWhile_sublist (l := rest) isWs).length_le
        omega
      · simp only [collapseWsAux, hw, if_neg, Bool.false_eq_true, not_false_iff,
          List.length_cons]
        have := ih rest
        omega

theorem length_strip_le (l : Str) : (strip l).length ≤ l.length := by
  have h1 : (lstrip l).length ≤ l.length := (List.dropWhile_sublist _).length_le
  have h2 : (rstrip (lstrip l)).length ≤ (lstrip l).length := by
    unfold rstrip
    rw [List.length_reverse]
    exact le_trans (List.dropWhile_sublist _).length_le (by simp)
  exact le_trans h2 h1

theorem lower_fixed {l : Str} (h : ∀ c ∈ l, lowerChar c = c) : lower l = l := by
  unfold lower
  exact List.map_congr_left h |>.trans (List.map_id l)

theorem lowered_lower (t : Str) : ∀ c ∈ lower t, lowerChar c = c := by
  intro c hc
  obtain ⟨x, _, rfl⟩ := List.mem_map.1 hc
  exact lowerChar_idem x

theorem lowered_strip {t : Str} (h : ∀ c ∈ t, lowerChar c = c) :
    ∀ c ∈ strip t, lowerChar c = c :=
  fun c hc => h c (mem_of_mem_strip hc)

theorem lowered_collapseWs {t : Str} (h : ∀ c ∈ t, lowerChar c = c) :
    ∀ c ∈ collapseWs t, lowerChar c = c := by
  intro c hc
  rcases mem_collapseWs hc with h' | h'
  · exact h c h'
  · subst h'; decide

/-- C9 counterexample: `normalize_alias` is not idempotent — stripping
a trailing quantity-unit phrase leaves a boundary space
(`normalize_alias "подушка 10 шт" = "подушка "`), which a second
normalization removes. -/
theorem C9_counterexample :
    normalize_alias (normalize_alias (str "подушка 10 шт")) ≠
      normalize_alias (str "подушка 10 шт") := by decide

/-- C9 (amended): `normalize_alias` is idempotent on alias texts
without digits (hence without quantity-unit phrases) of length ≤ 255;
in general a removed qty-unit phrase leaves a boundary space that a
second pass strips. -/
theorem C9_normalize_alias_idem (t : Str) (hdig : ∀ c ∈ t, isDig c = false)
    (hlen : t.length ≤ 255) :
    normalize_alias (normalize_alias t) = normalize_alias t := by
  have hx : ∀ c ∈ strip (lower t), isDig c = false :=
    nodig_strip (nodig_lower hdig)
  have hNt : normalize_alias t = collapseWs (strip (lower t)) := by
    show List.take 255 (collapseWs (runSubCtx matchQtyUnit (strip (lower t)))) =
      collapseWs (strip (lower t))
    rw [runSubCtx_qty_id hx]
    apply List.take_of_length_le
    calc (collapseWs (strip (lower t))).length
        ≤ (strip (lower t)).length := length_collapseWsAux_le _ _
      _ ≤ (lower t).length := length_strip_le _
      _ = t.length := List.length_map t lowerChar
      _ ≤ 255 := hlen
  rw [hNt]
  have hlowr : lower (collapseWs (strip (lower t))) = collapseWs (strip (lower t)) :=
    lower_fixed (lowered_collapseWs (lowered_strip (lowered_lower t)))
  have hstr : strip (collapseWs (strip (lower t))) = collapseWs (strip (lower t)) :=
    strip_collapseWs_strip (lower t)
  have hdr : ∀ c ∈ collapseWs (strip (lower t)), isDig c = false :=
    nodig_collapseWs hx
  have hfix : collapseWs (collapseWs (strip (lower t))) =
      collapseWs (strip (lower t)) :=
    collapseWsAux_fix _ _ le_rfl (wsOk_collapseWs _)
  show List.take 255
      (collapseWs (runSubCtx matchQtyUnit
        (strip (lower (collapseWs (strip (lower t))))))) =
    collapseWs (strip (lower t))
  rw [hlowr, hstr, runSubCtx_qty_id hdr, hfix]
  apply List.take_of_length_le
  calc (collapseWs (strip (lower t))).length
      ≤ (strip (lower t)).length := length_collapseWsAux_le _ _
    _ ≤ (lower t).length := length_strip_le _
    _ = t.length := List.length_map t lowerChar
    _ ≤ 255 := hlen

/-- C9 witness: a digit-free alias normalizes idempotently. -/
theorem C9_normalize_alias_idem_witness :
    (∀ c ∈ str "красная подушка", isDig c = false) ∧
      (str "красная подушка").length ≤ 255 ∧
      normalize_alias (normalize_alias (str "красная подушка")) =
        normalize_alias (str "красная подушка") :=
  ⟨by decide, by decide,
    C9_normalize_alias_idem (str "красная подушка") (by decide) (by decide)⟩

/-! ## Dict-lookup helper lemmas (C5) -/

theorem dictGet_isSome_iff_any (m : AliasMap) (k : Str) :
    (dictGet m k).isSome = m.any (fun p => p.1 == k) := by
  induction m with
  | nil => rfl
  | cons p ps ih =>
    by_cases h : (p.1 == k) = true
    · simp [dictGet, List.find?_cons_of_pos, h]
    · simp only [List.any_cons, h, Bool.false_or]
      rw [← ih]
      simp [dictGet, List.find?_cons_of_neg, h]

theorem dictGet_isSome_dictInsert (m : AliasMap) (k k' v : Str)
    (h : (dictGet m k).isSome = true) :
    (dictGet (dictInsert m k' v) k).isSome = true := by
  rw [dictGet_isSome_iff_any] at h ⊢
  unfold dictInsert
  by_cases hmem : m.any (fun p => p.1 == k') = true
  · rw [if_pos hmem, List.any_map]
    rw [List.any_eq_true] at h ⊢
    obtain ⟨p, hp, hpk⟩ := h
    refine ⟨p, hp, ?_⟩
    by_cases hk' : (p.1 == k') = true
    · have h1 : p.1 = k' := by simpa using hk'
      have h2 : p.1 = k := by simpa using hpk
      simp [Function.comp, hk', ← h1, h2]
    · simp [Function.comp, hk', hpk]
  · rw [if_neg hmem, List.any_append]
    simp [h]

theorem dictGet_isSome_dictMerge (base extra : List (Str × Str)) (k : Str)
    (h : (dictGet base k).isSome = true) :
    (dictGet (dictMerge base extra) k).isSome = true := by
  induction extra generalizing base with
  | nil => simpa [dictMerge] using h
  | cons p ps ih =>
    have := ih (dictInsert base p.1 p.2)
      (dictGet_isSome_dictInsert base k p.1 p.2 h)
    simpa [dictMerge] using this

/-! ## C5 -/

/-- C5 counterexample: on an empty healthy session with Redis off,
`get_alias_map` returns exactly `DEFAULT_ALIASES` (which maps
`ппу → поролон`), and a 5-token query — well over the 3-token guard —
still has its `ппу` token rewritten to `поролон`, contradicting the
claim that on long queries the token is left unchanged. -/
theorem C5_counterexample :
    (get_alias_map sessEmpty settings0 none = DEFAULT_ALIASES) ∧
    (3 < (aliasTokens (lower (strip
        (str "матрас ппу 120x200 чехол бязь")))).length) ∧
    ((normalize_query_with_aliases (str "матрас ппу 120x200 чехол бязь")
        (get_alias_map sessEmpty settings0 none)).1
      = str "матрас поролон 120x200 чехол бязь") := by
  decide

/-- C5 (corrected): the short-query guard only changes the *fallback*
value used when `ппу` is absent from the alias map; but (a) whenever
Redis is not configured, every map produced by `get_alias_map` contains
the key `ппу` (merged in from `DEFAULT_ALIASES`), and therefore (b) the
guarded rewrite coincides with the plain token-wise map application for
every query and every value of the short-query flag. -/
theorem C5_guard_only_changes_fallback :
    (∀ (sess : Session) (settings : Settings) (org_id : Option Nat),
      settings.redis_url = [] →
      (dictGet (get_alias_map sess settings org_id) (str "ппу")).isSome = true) ∧
    (∀ (m : AliasMap) (v text : Str) (short : Bool),
      dictGet m (str "ппу") = some v →
      normalize_query_with_aliases_core text m short =
        normalize_query_with_aliases_unguarded text m) := by
  constructor
  · intro sess settings org_id h
    unfold get_alias_map
    rw [h]
    simp only [List.isEmpty_nil, Bool.not_true, Bool.false_eq_true, if_false]
    apply dictGet_isSome_dictMerge
    decide
  · intro m v text short h
    have hrep : aliasReplacement m short = fun token => dictGetD m token token := by
      funext token
      by_cases ht : token = str "ппу"
      · subst ht
        simp [aliasReplacement, dictGetD, h]
      · simp [aliasReplacement, ht]
    by_cases hraw : (strip text).isEmpty
    · simp [normalize_query_with_aliases_core,
        normalize_query_with_aliases_unguarded, hraw]
    · simp only [normalize_query_with_aliases_core,
        normalize_query_with_aliases_unguarded, hraw, Bool.false_eq_true,
        if_false, hrep]

/-- C5 witness: the empty no-Redis session yields a map containing
`ппу`, and with the key present the guarded and unguarded rewrites of a
concrete query agree even with the short-query flag forced on. -/
theorem C5_guard_only_changes_fallback_witness :
    ((dictGet (get_alias_map sessEmpty settings0 none) (str "ппу")).isSome = true) ∧
    (normalize_query_with_aliases_core (str "матрас ппу чехол")
        DEFAULT_ALIASES true
      = normalize_query_with_aliases_unguarded (str "матрас ппу чехол")
          DEFAULT_ALIASES) :=
  ⟨C5_guard_only_changes_fallback.1 sessEmpty settings0 none rfl,
   C5_guard_only_changes_fallback.2 DEFAULT_ALIASES (str "поролон")
     (str "матрас ппу чехол") true (by decide)⟩

/-! ## C3 -/

theorem mem_filter_chain {p : Product} (L : List Product) (nums : List Nat)
    (toks : List Str)
    (hp : p ∈ (if !toks.isEmpty then
        (if !nums.isEmpty then
          L.filter fun q =>
            nums.all fun num => infixOf (natToStr num) (lower (titleD q))
         else L).filter fun q =>
          toks.all fun tok =>
            token_matches_title tok
              (findTokens (normalize_query_text (titleD q)) ++
                findTokens (normalize_query_text (skuD q)))
      else
        (if !nums.isEmpty then
          L.filter fun q =>
            nums.all fun num => infixOf (natToStr num) (lower (titleD q))
         else L))) :
    (∀ n ∈ nums, infixOf (natToStr n) (lower (titleD p)) = true) ∧
    (∀ t ∈ toks,
      token_matches_title t
        (findTokens (normalize_query_text (titleD p)) ++
          findTokens (normalize_query_text (skuD p))) = true) := by
  have step : (p ∈ (if !nums.isEmpty then
        L.filter fun q =>
          nums.all fun num => infixOf (natToStr num) (lower (titleD q))
       else L)) ∧
      (∀ t ∈ toks,
        token_matches_title t
          (findTokens (normalize_query_text (titleD p)) ++
            findTokens (normalize_query_text (skuD p))) = true) := by
    by_cases htok : toks.isEmpty = true
    · simp only [htok, Bool.not_true, Bool.false_eq_true, if_false] at hp
      refine ⟨hp, ?_⟩
      intro t ht
      rw [List.isEmpty_iff] at htok
      rw [htok] at ht
      cases ht
    · simp only [Bool.not_eq_true] at htok
      simp only [htok, Bool.not_false, if_true, List.mem_filter] at hp
      exact ⟨hp.1, fun t ht => List.all_eq_true.mp hp.2 t ht⟩
  obtain ⟨hp2, htoks⟩ := step
  refine ⟨?_, htoks⟩
  by_cases hne : nums.isEmpty = true
  · intro n hn
    rw [List.isEmpty_iff] at hne
    rw [hne] at hn
    cases hn
  · simp only [Bool.not_eq_true] at hne
    simp only [hne, Bool.not_false, if_true, List.mem_filter] at hp2
    exact fun n hn => List.all_eq_true.mp hp2.2 n hn

/-- C3: every candidate returned by `search_products` passes the strict
post-filters — every effective required number of the query is a
substring of the (lowered) product title, and every required token
prefix-matches (or equals) some word of the tokenized title-plus-sku —
irrespective of which prefetch branch (including the two-number
fallback) produced the row. -/
theorem C3_strict_postfilter (db : List Product) (query : Str) (lim : Nat)
    (cids pids : Option (List Nat)) (c : Candidate)
    (hc : c ∈ search_products db query lim cids pids) :
    (∀ n ∈ effective_numbers (normalize_query_text query)
        (extract_numbers (normalize_query_text query)),
      infixOf (natToStr n) (lower (c.title_ru.getD [])) = true) ∧
    (∀ t ∈ extract_tokens (normalize_query_text query),
      token_matches_title t
        (findTokens (normalize_query_text (c.title_ru.getD [])) ++
          findTokens (normalize_query_text (c.sku.getD []))) = true) := by
  simp only [search_products] at hc
  rw [List.mem_map] at hc
  obtain ⟨x, hx, hxc⟩ := hc
  have hx2 := mem_stableSort.mp (mem_of_mem_take hx)
  rw [List.mem_map] at hx2
  obtain ⟨p, hp, hpx⟩ := hx2
  subst hpx
  subst hxc
  exact mem_filter_chain _ _ _ hp

/-- C3 witness: the query `мел` over the one-product catalog returns a
candidate, which satisfies both strict post-filter properties. -/
theorem C3_strict_postfilter_witness :
    (∀ n ∈ effective_numbers (normalize_query_text (str "мел"))
        (extract_numbers (normalize_query_text (str "мел"))),
      infixOf (natToStr n) (lower (c3cand.title_ru.getD [])) = true) ∧
    (∀ t ∈ extract_tokens (normalize_query_text (str "мел")),
      token_matches_title t
        (findTokens (normalize_query_text (c3cand.title_ru.getD [])) ++
          findTokens (normalize_query_text (c3cand.sku.getD []))) = true) :=
  C3_strict_postfilter c3db (str "мел") 5 none none c3cand (by
    have h : search_products c3db (str "мел") 5 none none = [c3cand] := rfl
    rw [h]
    exact List.mem_singleton.mpr rfl)

/-! ## C4 -/

/-- C4 counterexample: on the query `матрас пружин` (with_springs
holds) over history containing a 7-times-ordered "без пружин" mattress
and a once-ordered sprung one, the conflicting candidate is returned
*first* — its `log1p(7)` count bonus outweighs the `0.8` conflict
penalty — refuting "never top-ranked when any non-conflicting candidate
is returned". -/
theorem C4_counterexample :
    ((history_tokenize_query (str "матрас пружин")).2.2.2 = true) ∧
    ((search_history_products c4stats c4products 1 (str "матрас пружин") 5
        0).map (fun c => c.attribute_conflict) = [some true, some false]) := by
  constructor
  · decide
  · have hlen : (history_scored c4stats c4products 1 (str "матрас пружин")
        0).length = 2 := rfl
    have hS := list_eq_pair_of_length_eq_two cDefault hlen
    have ha : ((history_scored c4stats c4products 1 (str "матрас пружин")
        0).getD 0 cDefault).attribute_conflict = some true := rfl
    have hb : ((history_scored c4stats c4products 1 (str "матрас пружин")
        0).getD 1 cDefault).attribute_conflict = some false := rfl
    have hcmp : ¬(((history_scored c4stats c4products 1 (str "матрас пружин")
          0).getD 0 cDefault).score <
        ((history_scored c4stats c4products 1 (str "матрас пружин")
          0).getD 1 cDefault).score) := by
      show ¬(log1p 7 + 0 + ((0 : ℕ) : ℝ) * (35 / 100) - 4 / 5 <
          log1p 1 + 0 + ((0 : ℕ) : ℝ) * (35 / 100) - 0)
      intro hlt
      simp only [log1p, Nat.cast_zero, zero_mul, add_zero, sub_zero] at hlt
      have e1 : (1 : ℝ) + ((7 : ℕ) : ℝ) = 8 := by norm_num
      have e2 : (1 : ℝ) + ((1 : ℕ) : ℝ) = 2 := by norm_num
      rw [e1, e2] at hlt
      have h8 : Real.log 8 = 3 * Real.log 2 := by
        rw [show (8 : ℝ) = 2 ^ (3 : ℕ) by norm_num, Real.log_pow]
        push_cast
        ring
      rw [h8] at hlt
      have hl2 := Real.log_two_gt_d9
      linarith
    show ((stableSort (fun a b => decide (b.score < a.score))
        (history_scored c4stats c4products 1 (str "матрас пружин") 0)).take
          5).map (fun c => c.attribute_conflict) = [some true, some false]
    rw [hS]
    simp only [stableSort_pair]
    rw [decide_eq_false hcmp]
    simp only [Bool.false_eq_true, if_false]
    show [((history_scored c4stats c4products 1 (str "матрас пружин")
        0).getD 0 cDefault).attribute_conflict,
      ((history_scored c4stats c4products 1 (str "матрас пружин")
        0).getD 1 cDefault).attribute_conflict] = [some true, some false]
    rw [ha, hb]

/-- C4 (corrected): the conflict-flag half of the claim holds — for
every history search with `with_springs` set, every returned candidate
whose normalized title-plus-sku contains `без пружин` carries
`attribute_conflict = some true`; but the ranking half is false (see
the counterexample), since the `0.8` penalty is outweighed by order
counts. -/
theorem C4_conflict_flag (stats : List OrgStats) (products : List Product)
    (org_id : Nat) (q : Str) (lim : Nat) (now : Int) (c : Candidate)
    (hc : c ∈ search_history_products stats products org_id q lim now)
    (hs : (history_tokenize_query q).2.2.2 = true)
    (ht : infixOf (str "без пружин")
      (normalize_query_text
        (c.title_ru.getD [] ++ [32] ++ c.sku.getD [])) = true) :
    c.attribute_conflict = some true := by
  rcases htq : history_tokenize_query q with ⟨anchors, optional, numbers, ws⟩
  rw [htq] at hs
  simp only [search_history_products, htq] at hc
  by_cases hg : (anchors.isEmpty && numbers.isEmpty) = true
  · rw [if_pos hg] at hc
    cases hc
  · rw [if_neg hg] at hc
    have hc2 := mem_stableSort.mp (mem_of_mem_take hc)
    simp only [history_scored, htq, List.mem_filterMap] at hc2
    obtain ⟨sp, hsp, hf⟩ := hc2
    split_ifs at hf with h1 h2 h3
    · obtain rfl : _ = c := Option.some.inj hf
      exact congrArg some h3
    · obtain rfl : _ = c := Option.some.inj hf
      exfalso
      apply h3
      have hws : ws = true := hs
      rw [hws, Bool.true_and]
      exact ht

/-- C4 witness: on history holding only the conflicting mattress, the
returned candidate carries `attribute_conflict = some true`. -/
theorem C4_conflict_flag_witness :
    ((history_tokenize_query (str "матрас пружин")).2.2.2 = true) ∧
    (infixOf (str "без пружин")
      (normalize_query_text
        (c4cand.title_ru.getD [] ++ [32] ++ c4cand.sku.getD [])) = true) ∧
    c4cand.attribute_conflict = some true :=
  ⟨rfl, rfl,
    C4_conflict_flag c4statsOne c4products 1 (str "матрас пружин") 5 0 c4cand
      (by
        have h : search_history_products c4statsOne c4products 1
            (str "матрас пружин") 5 0 = [c4cand] := rfl
        rw [h]
        exact List.mem_singleton.mpr rfl)
      rfl rfl⟩

/-! ## C1 -/

set_option maxRecDepth 100000 in
/-- C1 (code bug): on the query `труба` over a session whose global
synonym rows chain `труба → шланг → рукав`, the canonical rewrite
produces `шланг` (matching nothing), so `decision` is initialised to
the sentinel `needs_llm`; the synonym retry then rewrites to `рукав`
and finds 1 candidate, but never updates `decision`, and the final
cleanup at line 860 only fires when *no* candidates exist — so the
pipeline returns the non-terminal decision `needs_llm`, which is not
among the spec's eight terminal values. -/
theorem C1_needs_llm_leak :
    ((run_search_pipeline 2 c1sess settings0 oracle0 none none (str "труба") 5
        true true true 0 0).map
      (fun r => (r.decision.decision, r.results.length,
        r.decision.synonym_retry_attempted)) =
      Except.ok (str "needs_llm", 1, true)) ∧
    specTerminalDecisions.contains (str "needs_llm") = false := by
  constructor
  · rfl
  · decide

/-! ## C2 -/

/-- C2 counterexample: a failing database connection aborts
`run_search_pipeline` — the first alias-stage query raises and the
error propagates to the caller, refuting "any stage that raises is
treated as zero candidates and the pipeline continues". -/
theorem C2_counterexample :
    run_search_pipeline 1 c2sess settings0 oracle0 (some 1) none (str "мел") 5
      true true true 0 0 =
      Except.error (.db (str "connection lost")) := rfl

/-- C2 (corrected): `run_search_pipeline` wraps no stage in
`try/except` (only `get_alias_map` catches internally), so a database
error raised in a stage propagates to the caller instead of being
degraded to zero candidates: for *every* database content, settings,
oracle, user, limit, feature flags, clarify offset, clock and fuel,
a failing session (here: on the single-item query `мел` with a truthy
org id, whose first stage query is the org-alias lookup) aborts the
whole pipeline with that database error. -/
theorem C2_db_error_propagates (ps : List Product) (oa : List OrgAlias)
    (os : List OrgStats) (sa : List SearchAlias) (om : List OrgMember)
    (rc : Nat → Option AliasMap) (e : Str) (settings : Settings)
    (oracle : LLMOracle) (user_id : Option Nat) (lim : Nat) (n1 n2 n3 : Bool)
    (co : Nat) (now : Int) (fuel : Nat) :
    run_search_pipeline (fuel + 1) ⟨ps, oa, os, sa, om, rc, some e⟩ settings
      oracle (some 1) user_id (str "мел") lim n1 n2 n3 co now =
      Except.error (.db e) := rfl

/-! ## C6 -/

set_option maxHeartbeats 2000000 in
/-- Oracle noninterference of the pipeline: with the LLM unavailable,
every oracle-consulting stage (rewrite, suggest/narrow, rerank) is
guarded by `llm_available settings`, so the run never consults the
oracle; proved for every fuel, session, settings, arguments and input
text by induction on the fuel (the multi-item branch recurses on its
sub-queries). -/
theorem pipeline_oracle_indep (fuel : Nat) :
    ∀ (sess : Session) (settings : Settings) (o : LLMOracle)
      (org_id user_id : Option Nat) (text : Str) (lim : Nat)
      (n1 n2 n3 : Bool) (co : Nat) (now : Int),
      llm_available settings = false →
      run_search_pipeline fuel sess settings o org_id user_id text lim
        n1 n2 n3 co now =
      run_search_pipeline fuel sess settings oracle0 org_id user_id text lim
        n1 n2 n3 co now := by
  induction fuel with
  | zero => intros; rfl
  | succ f ih =>
    intro sess settings o org_id user_id text lim n1 n2 n3 co now h
    simp only [run_search_pipeline, h, Bool.and_false, Bool.false_eq_true,
      if_false, ih _ _ _ _ _ _ _ _ _ _ _ _ h]

/-- C6: with the LLM disabled (`llm_available settings = false`), the
pipeline is deterministic — for every fuel, session (database state),
settings, arguments and input text, the run is a pure function of
those inputs, returning identical payloads for any two oracles — and
`route_message` degrades to the pure heuristic: for every heuristic,
oracle, non-LLM settings and text it returns exactly the heuristic
actions, performing no LLM call. -/
theorem C6_llm_off_deterministic :
    (∀ (fuel : Nat) (sess : Session) (settings : Settings)
      (o₁ o₂ : LLMOracle) (org_id user_id : Option Nat) (text : Str)
      (lim : Nat) (n1 n2 n3 : Bool) (co : Nat) (now : Int),
      llm_available settings = false →
      run_search_pipeline fuel sess settings o₁ org_id user_id text lim
        n1 n2 n3 co now =
      run_search_pipeline fuel sess settings o₂ org_id user_id text lim
        n1 n2 n3 co now) ∧
    (∀ (heuristic : Str → List RouterAction) (o : LLMOracle) (s : Settings)
      (t : Str), llm_available s = false →
      route_message heuristic o s t = heuristic t) := by
  constructor
  · intro fuel sess settings o₁ o₂ org_id user_id text lim n1 n2 n3 co now h
    exact (pipeline_oracle_indep fuel sess settings o₁ org_id user_id text lim
        n1 n2 n3 co now h).trans
      (pipeline_oracle_indep fuel sess settings o₂ org_id user_id text lim
        n1 n2 n3 co now h).symm
  · intro heuristic o s t h
    simp [route_message, h]

/-- C6 witness: the concrete `труба` run (which traverses the
canonical rewrite, local stage, synonym retry and every llm-guard)
agrees on two everywhere-different oracles, and the router with
LLM-disabled settings returns the heuristic actions. -/
theorem C6_llm_off_deterministic_witness :
    (run_search_pipeline 2 c1sess settings0 oracle1 none none (str "труба") 5
        true true true 0 0 =
      run_search_pipeline 2 c1sess settings0 oracle0 none none (str "труба") 5
        true true true 0 0) ∧
    llm_available settings0 = false ∧
    route_message (fun _ => []) oracle1 settings0 (str "привет") = [] :=
  ⟨C6_llm_off_deterministic.1 2 c1sess settings0 oracle1 oracle0 none none
      (str "труба") 5 true true true 0 0 rfl,
    rfl,
    C6_llm_off_deterministic.2 (fun _ => []) oracle1 settings0 (str "привет")
      rfl⟩

end Bot
